import Mathlib

/-!
Verification development for the osint-d2 identity pipeline.

This file shallowly embeds the parts of the repository that the checked
properties are about:

* `src/core/domain/models.py` — the `SocialProfile` / `AnalysisReport` /
  `PersonEntity` data model (as Lean structures; the open-schema `metadata`
  mapping becomes an association list of `MVal` values with Python-dict
  update semantics).
* `src/adapters/site_lists/operations.py` — `apply_input_operation`.
* `src/adapters/ai_analyst.py` — JSON extraction, payload validation,
  template detection, the confidence clamp, the missing-API-key policy,
  the heuristic fallback report, the purge of non-existent profiles and
  the retry loop of `analyze_person`.
* `src/core/services/identity_pipeline.py` — `dedupe_profiles`,
  `_strict_keep_profile`, `safe_scan`, `extract_extras` and the `hunt`
  worklist orchestration.
* the concrete scanners under `src/adapters/osint_sources/` and
  `src/adapters/email_sources/` (profile construction as a function of the
  abstracted HTTP response / parsed-page evidence).

External collaborators (the HTTP stack, BeautifulSoup extraction results,
`hashlib` digests, the AI provider) are abstracted as explicit inputs, so
every definition is executable.  Asynchronous orchestration is modelled by
the sequential collection order the orchestrator itself imposes when it
gathers task results; Python `set` iteration order is modelled by sorted
enumeration (no checked property depends on the enumeration order chosen).
-/

namespace OsintD2

/-! ## Python-level string helpers -/

/-- Python `str.strip()` whitespace set: space, tab, newline, carriage
return, vertical tab, form feed. -/
def isPySpace (c : Char) : Bool :=
  c = ' ' || c = '\t' || c = '\n' || c = '\r' || c = Char.ofNat 11 || c = Char.ofNat 12

/-- Python `str.strip()` on a list of characters. -/
def pyStripList (l : List Char) : List Char :=
  ((l.dropWhile isPySpace).reverse.dropWhile isPySpace).reverse

/-- Python `str.strip()`. -/
def pyStrip (s : String) : String :=
  ⟨pyStripList s.data⟩

/-- ASCII lower-casing of one character (the fragment of Python
`str.lower()` exercised by the code; identifiers and URLs are ASCII). -/
def pyLowerChar (c : Char) : Char :=
  if 'A' ≤ c ∧ c ≤ 'Z' then Char.ofNat (c.toNat + 32) else c

/-- Python `str.lower()` (ASCII fragment). -/
def pyLower (s : String) : String :=
  ⟨s.data.map pyLowerChar⟩

/-- Python truthiness of an optional string (`None` and `""` are falsy). -/
def pyTruthy : Option String → Bool
  | none => false
  | some s => s ≠ ""

/-- Python `a in b` on strings: `a` occurs as a contiguous substring. -/
def isSubstr (needle haystack : String) : Bool :=
  let n := needle.data
  let rec go : List Char → Bool
    | [] => n.isPrefixOf []
    | c :: rest => n.isPrefixOf (c :: rest) || go rest
  go haystack.data

/-- Python `str.startswith`. -/
def pyStartsWith (s pre : String) : Bool :=
  pre.data.isPrefixOf s.data

/-- Python `str.endswith`. -/
def pyEndsWith (s suf : String) : Bool :=
  suf.data.reverse.isPrefixOf s.data.reverse

/-- Python `str.removesuffix`. -/
def pyRemoveSuffix (s suf : String) : String :=
  if pyEndsWith s suf ∧ suf ≠ "" then
    ⟨s.data.take (s.data.length - suf.data.length)⟩
  else s

/-- Python `str.replace(old, new)` (all occurrences, left to right);
`old` is assumed non-empty (it is a literal in the source). -/
def pyReplaceList (old new : List Char) : List Char → List Char
  | [] => []
  | c :: rest =>
    if old ≠ [] ∧ old.isPrefixOf (c :: rest) then
      new ++ pyReplaceList old new (rest.drop (old.length - 1))
    else
      c :: pyReplaceList old new rest
termination_by l => l.length
decreasing_by
  · simp only [List.length_cons, List.length_drop]
    omega
  · simp

/-- Python `str.replace(old, new)`. -/
def pyReplace (s old new : String) : String :=
  ⟨pyReplaceList old.data new.data s.data⟩

/-! ## Open-schema metadata values

`SocialProfile.metadata` is `dict[str, Any]` in the source.  The pipeline
only ever stores JSON-like evidence there, so we embed the values as a
small inductive and the dict as an association list with Python `dict`
semantics (unique keys, insertion order, `{**a, **b}` right-biased
update). -/

inductive MVal where
  | s (v : String)
  | i (v : Int)
  | b (v : Bool)
  | none
  | list (v : List MVal)
  | dict (v : List (String × MVal))
  deriving Repr

abbrev MetaDict := List (String × MVal)

mutual

def MVal.decEq : (a b : MVal) → Decidable (a = b)
  | .s x, .s y =>
    if h : x = y then isTrue (by rw [h]) else isFalse (by intro hc; cases hc; exact h rfl)
  | .i x, .i y =>
    if h : x = y then isTrue (by rw [h]) else isFalse (by intro hc; cases hc; exact h rfl)
  | .b x, .b y =>
    if h : x = y then isTrue (by rw [h]) else isFalse (by intro hc; cases hc; exact h rfl)
  | .none, .none => isTrue rfl
  | .list x, .list y =>
    match MVal.decEqL x y with
    | isTrue h => isTrue (by rw [h])
    | isFalse h => isFalse (by intro hc; cases hc; exact h rfl)
  | .dict x, .dict y =>
    match MVal.decEqD x y with
    | isTrue h => isTrue (by rw [h])
    | isFalse h => isFalse (by intro hc; cases hc; exact h rfl)
  | .s _, .i _ => isFalse (by intro h; cases h)
  | .s _, .b _ => isFalse (by intro h; cases h)
  | .s _, .none => isFalse (by intro h; cases h)
  | .s _, .list _ => isFalse (by intro h; cases h)
  | .s _, .dict _ => isFalse (by intro h; cases h)
  | .i _, .s _ => isFalse (by intro h; cases h)
  | .i _, .b _ => isFalse (by intro h; cases h)
  | .i _, .none => isFalse (by intro h; cases h)
  | .i _, .list _ => isFalse (by intro h; cases h)
  | .i _, .dict _ => isFalse (by intro h; cases h)
  | .b _, .s _ => isFalse (by intro h; cases h)
  | .b _, .i _ => isFalse (by intro h; cases h)
  | .b _, .none => isFalse (by intro h; cases h)
  | .b _, .list _ => isFalse (by intro h; cases h)
  | .b _, .dict _ => isFalse (by intro h; cases h)
  | .none, .s _ => isFalse (by intro h; cases h)
  | .none, .i _ => isFalse (by intro h; cases h)
  | .none, .b _ => isFalse (by intro h; cases h)
  | .none, .list _ => isFalse (by intro h; cases h)
  | .none, .dict _ => isFalse (by intro h; cases h)
  | .list _, .s _ => isFalse (by intro h; cases h)
  | .list _, .i _ => isFalse (by intro h; cases h)
  | .list _, .b _ => isFalse (by intro h; cases h)
  | .list _, .none => isFalse (by intro h; cases h)
  | .list _, .dict _ => isFalse (by intro h; cases h)
  | .dict _, .s _ => isFalse (by intro h; cases h)
  | .dict _, .i _ => isFalse (by intro h; cases h)
  | .dict _, .b _ => isFalse (by intro h; cases h)
  | .dict _, .none => isFalse (by intro h; cases h)
  | .dict _, .list _ => isFalse (by intro h; cases h)

def MVal.decEqL : (a b : List MVal) → Decidable (a = b)
  | [], [] => isTrue rfl
  | [], _ :: _ => isFalse (by intro h; cases h)
  | _ :: _, [] => isFalse (by intro h; cases h)
  | x :: xs, y :: ys =>
    have d1 : Decidable (x = y) := MVal.decEq x y
    have d2 : Decidable (xs = ys) := MVal.decEqL xs ys
    match d1, d2 with
    | isTrue h1, isTrue h2 => isTrue (by rw [h1, h2])
    | isFalse h1, _ => isFalse (by intro hc; cases hc; exact h1 rfl)
    | _, isFalse h2 => isFalse (by intro hc; cases hc; exact h2 rfl)

def MVal.decEqD : (a b : List (String × MVal)) → Decidable (a = b)
  | [], [] => isTrue rfl
  | [], _ :: _ => isFalse (by intro h; cases h)
  | _ :: _, [] => isFalse (by intro h; cases h)
  | (k, x) :: xs, (k', y) :: ys =>
    have d1 : Decidable (x = y) := MVal.decEq x y
    have d2 : Decidable (xs = ys) := MVal.decEqD xs ys
    if hk : k = k' then
      match d1, d2 with
      | isTrue h1, isTrue h2 => isTrue (by rw [hk, h1, h2])
      | isFalse h1, _ => isFalse (by intro hc; cases hc; exact h1 rfl)
      | _, isFalse h2 => isFalse (by intro hc; cases hc; exact h2 rfl)
    else isFalse (by intro hc; cases hc; exact hk rfl)

end

instance : DecidableEq MVal := MVal.decEq

instance : DecidableEq MetaDict := MVal.decEqD

/-- Python `d[k] = v` / insertion during `{...}` construction: replaces the
value in place if the key exists, otherwise appends. -/
def dictSet (d : MetaDict) (k : String) (v : MVal) : MetaDict :=
  match d with
  | [] => [(k, v)]
  | (k', v') :: rest =>
    if k' = k then (k', v) :: rest else (k', v') :: dictSet rest k v

/-- Python `d.get(k)` (`None` when the key is absent). -/
def dictGet (d : MetaDict) (k : String) : MVal :=
  match d with
  | [] => MVal.none
  | (k', v) :: rest => if k' = k then v else dictGet rest k

/-- Python `k in d`. -/
def dictHas (d : MetaDict) (k : String) : Bool :=
  match d with
  | [] => false
  | (k', _) :: rest => k' = k || dictHas rest k

/-- Python `{**a, **b}`. -/
def dictUnion (a b : MetaDict) : MetaDict :=
  b.foldl (fun acc kv => dictSet acc kv.1 kv.2) a

/-! ## Exact numbers

Float values in the code (confidence scores, JSON numbers) are embedded
as exact unnormalised rationals with a structural representation, so all
definitions evaluate by kernel reduction.  Every constructed value has a
positive denominator. -/

structure Q where
  num : Int
  den : Nat
  deriving Repr, DecidableEq

/-- Order on embedded rationals (denominators are positive by
construction). -/
def qLe (a b : Q) : Bool :=
  a.num * (b.den : Int) ≤ b.num * (a.den : Int)

/-- Python `min(a, b)` (returns the first argument on ties). -/
def qMin (a b : Q) : Q :=
  if qLe a b then a else b

/-- Equality as rational numbers (representation-independent). -/
def qEquiv (a b : Q) : Bool :=
  a.num * (b.den : Int) = b.num * (a.den : Int)

/-! ## Domain model (`src/core/domain/models.py`) -/

/-- `SocialProfile` (Pydantic model): url, username, network name,
existence verdict, open-schema metadata, optional bio and avatar URL. -/
structure SocialProfile where
  url : String
  username : String
  network_name : String
  existe : Bool := false
  metadata : MetaDict := []
  bio : Option String := Option.none
  imagen_url : Option String := Option.none
  deriving Repr, DecidableEq

/-- `AnalysisReport` (Pydantic model).  `confidence` is embedded as a
rational; the timestamp is not modelled (no checked property mentions
it).  `raw` keeps only the `reason` field shape the claims talk about. -/
structure AnalysisReport where
  summary : String
  highlights : List String := []
  confidence : Q := ⟨1, 2⟩
  model : Option String := Option.none
  rawReason : Option String := Option.none
  deriving Repr, DecidableEq

/-- `PersonEntity` aggregate. -/
structure PersonEntity where
  target : String
  profiles : List SocialProfile := []
  deriving Repr, DecidableEq

inductive Language where
  | english
  | spanish
  deriving Repr, DecidableEq

/-! ## `apply_input_operation` (`src/adapters/site_lists/operations.py`) -/

/-- `urllib.parse.quote` default safe characters: unreserved ASCII
(always safe) plus the default `safe='/'`. -/
def quoteSafeChar (c : Char) : Bool :=
  ('A' ≤ c ∧ c ≤ 'Z') || ('a' ≤ c ∧ c ≤ 'z') || ('0' ≤ c ∧ c ≤ '9') ||
  c = '_' || c = '.' || c = '-' || c = '~' || c = '/'

/-- UTF-8 encoding of one code point. -/
def utf8Bytes (n : Nat) : List Nat :=
  if n < 0x80 then [n]
  else if n < 0x800 then
    [0xC0 + n / 64, 0x80 + n % 64]
  else if n < 0x10000 then
    [0xE0 + n / 4096, 0x80 + (n / 64) % 64, 0x80 + n % 64]
  else
    [0xF0 + n / 262144, 0x80 + (n / 4096) % 64, 0x80 + (n / 64) % 64, 0x80 + n % 64]

/-- Upper-case hex digit. -/
def hexDigitUpper (n : Nat) : Char :=
  if n < 10 then Char.ofNat (48 + n) else Char.ofNat (55 + n)

/-- Percent-encoding of one byte, `%XX` with upper-case hex as
`urllib.parse.quote` produces. -/
def percentByte (b : Nat) : List Char :=
  ['%', hexDigitUpper (b / 16), hexDigitUpper (b % 16)]

/-- `urllib.parse.quote(v)` with the default safe set. -/
def pyQuote (s : String) : String :=
  ⟨s.data.flatMap fun c =>
    if quoteSafeChar c then [c] else (utf8Bytes c.toNat).flatMap percentByte⟩

/-- `apply_input_operation(value, operation)`.  The `hashlib` digests are
external library calls and enter as explicit functions (`md5Hex`,
`sha1Hex`, `sha256Hex` stand for the hex digest of the UTF-8 encoding of
the input). -/
def applyInputOperation (md5Hex sha1Hex sha256Hex : String → String)
    (value : String) (operation : Option String) : String :=
  match operation with
  | Option.none => value
  | Option.some operation =>
    let op := pyLower (pyStrip operation)
    if op = "identity" ∨ op = "none" ∨ op = "noop" then value
    else if op = "lower" then pyLower value
    else if op = "strip" then pyStrip value
    else if op = "urlencode" ∨ op = "url-encode" ∨ op = "url_encode" then pyQuote value
    else if op = "hash-md5" ∨ op = "md5" then md5Hex value
    else if op = "hash-sha1" ∨ op = "sha1" then sha1Hex value
    else if op = "hash-sha256" ∨ op = "sha256" then sha256Hex value
    else value

/-- The operation names `apply_input_operation` recognises. -/
def recognisedOperations : List String :=
  ["identity", "none", "noop", "lower", "strip", "urlencode", "url-encode",
   "url_encode", "hash-md5", "md5", "hash-sha1", "sha1", "hash-sha256", "sha256"]

/-! ### Idempotence lemmas for the input operations -/

lemma char_toNat_ofNat {n : Nat} (h : n < 55296) : (Char.ofNat n).toNat = n := by
  have hv : Nat.isValidChar n := Or.inl h
  rw [Char.ofNat, dif_pos hv]
  rfl

lemma pyLowerChar_idem (c : Char) : pyLowerChar (pyLowerChar c) = pyLowerChar c := by
  unfold pyLowerChar
  by_cases h : 'A' ≤ c ∧ c ≤ 'Z'
  · simp only [h, if_true, and_true]
    have hle : c.toNat ≤ 90 := h.2
    have hge : 65 ≤ c.toNat := h.1
    have hval : (Char.ofNat (c.toNat + 32)).toNat = c.toNat + 32 :=
      char_toNat_ofNat (by omega)
    have hno : ¬('A' ≤ Char.ofNat (c.toNat + 32) ∧ Char.ofNat (c.toNat + 32) ≤ 'Z') := by
      intro hc
      have h2 : (Char.ofNat (c.toNat + 32)).toNat ≤ 90 := hc.2
      rw [hval] at h2
      omega
    simp [hno]
  · simp [h]

lemma pyLower_idem (s : String) : pyLower (pyLower s) = pyLower s := by
  unfold pyLower
  apply congrArg String.mk
  show List.map pyLowerChar (List.map pyLowerChar s.data) = List.map pyLowerChar s.data
  rw [List.map_map]
  apply List.map_congr_left
  intro c _
  exact pyLowerChar_idem c

lemma dropWhile_cons_eq {p : Char → Bool} {l : List Char} {c : Char} {rest : List Char}
    (h : l.dropWhile p = c :: rest) : p c = false := by
  induction l with
  | nil => simp at h
  | cons x xs ih =>
    by_cases hx : p x
    · rw [List.dropWhile_cons_of_pos hx] at h
      exact ih h
    · rw [List.dropWhile_cons_of_neg hx] at h
      cases h
      simpa using hx

lemma dropWhile_idem (p : Char → Bool) (l : List Char) :
    (l.dropWhile p).dropWhile p = l.dropWhile p := by
  cases h : l.dropWhile p with
  | nil => simp
  | cons c rest =>
    have := dropWhile_cons_eq h
    simp [List.dropWhile_cons, this]

lemma pyStripList_no_lead (l : List Char) :
    (pyStripList l).dropWhile isPySpace = pyStripList l := by
  unfold pyStripList
  cases h : ((l.dropWhile isPySpace).reverse.dropWhile isPySpace).reverse with
  | nil => simp [h]
  | cons c rest =>
    -- the stripped list is a prefix of `l.dropWhile isPySpace`, so its
    -- head is the head of the front-stripped list and is not whitespace
    have hsuf : ((l.dropWhile isPySpace).reverse.dropWhile isPySpace) <:+
        (l.dropWhile isPySpace).reverse := List.dropWhile_suffix _
    have hpre : ((l.dropWhile isPySpace).reverse.dropWhile isPySpace).reverse <+:
        (l.dropWhile isPySpace).reverse.reverse := List.reverse_prefix.mpr hsuf
    rw [List.reverse_reverse] at hpre
    rw [h] at hpre
    obtain ⟨t, ht⟩ := hpre
    have hc : isPySpace c = false := by
      have hfull : l.dropWhile isPySpace = c :: (rest ++ t) := by
        rw [← ht]; simp
      exact dropWhile_cons_eq hfull
    simp [List.dropWhile_cons, hc]

lemma pyStripList_idem (l : List Char) :
    pyStripList (pyStripList l) = pyStripList l := by
  have h1 : (pyStripList l).dropWhile isPySpace = pyStripList l := pyStripList_no_lead l
  have h2 : (pyStripList l).reverse.dropWhile isPySpace = (pyStripList l).reverse := by
    have hrev : (pyStripList l).reverse
        = (l.dropWhile isPySpace).reverse.dropWhile isPySpace := by
      unfold pyStripList
      rw [List.reverse_reverse]
    rw [hrev]
    exact dropWhile_idem _ _
  calc pyStripList (pyStripList l)
      = (((pyStripList l).dropWhile isPySpace).reverse.dropWhile isPySpace).reverse := rfl
    _ = ((pyStripList l).reverse.dropWhile isPySpace).reverse := by rw [h1]
    _ = (pyStripList l).reverse.reverse := by rw [h2]
    _ = pyStripList l := List.reverse_reverse _

lemma pyStrip_idem (s : String) : pyStrip (pyStrip s) = pyStrip s := by
  unfold pyStrip
  apply congrArg String.mk
  show pyStripList (pyStripList s.data) = pyStripList s.data
  exact pyStripList_idem s.data

lemma pyQuote_fixed_of_safe (s : String) (h : s.data.all quoteSafeChar) :
    pyQuote s = s := by
  unfold pyQuote
  cases s with
  | _ data =>
    apply congrArg String.mk
    simp only [List.all_eq_true] at h
    induction data with
    | nil => simp
    | cons c rest ih =>
      have hc : quoteSafeChar c := h c (by simp)
      simp only [List.flatMap_cons, hc, if_true]
      have := ih (fun x hx => h x (by simp [hx]))
      simp_all

/-! ## Sorted-set helper

Python `sorted(set(...))` / set iteration is modelled by sorted unique
lists of strings. -/

def insertSortedUnique (x : String) : List String → List String
  | [] => [x]
  | y :: rest =>
    if x = y then y :: rest
    else if x < y then x :: y :: rest
    else y :: insertSortedUnique x rest

def sortedDedup (l : List String) : List String :=
  l.foldr insertSortedUnique []

def strSetUnion (a b : List String) : List String :=
  sortedDedup (a ++ b)

def strSetDiff (a b : List String) : List String :=
  a.filter (fun x => ¬ b.contains x)

/-! ## Python `str()` / `repr()` rendering of metadata values

Used by the heuristic report's f-strings.  String escaping inside `repr`
is not needed by any modelled evidence value and is left as plain
quoting. -/

mutual

def pyRepr : MVal → String
  | .s v => "'" ++ v ++ "'"
  | .i v => toString v
  | .b true => "True"
  | .b false => "False"
  | .none => "None"
  | .list l => "[" ++ pyReprL l ++ "]"
  | .dict d => "\x7b" ++ pyReprD d ++ "\x7d"

def pyReprL : List MVal → String
  | [] => ""
  | [x] => pyRepr x
  | x :: rest => pyRepr x ++ ", " ++ pyReprL rest

def pyReprD : List (String × MVal) → String
  | [] => ""
  | [(k, v)] => "'" ++ k ++ "': " ++ pyRepr v
  | (k, v) :: rest => "'" ++ k ++ "': " ++ pyRepr v ++ ", " ++ pyReprD rest

end

/-- Python `str(value)` as used in f-string interpolation. -/
def mvalPyStr : MVal → String
  | .s v => v
  | .i v => toString v
  | .b true => "True"
  | .b false => "False"
  | .none => "None"
  | .list l => pyRepr (.list l)
  | .dict d => pyRepr (.dict d)

/-- Python truthiness of a metadata value. -/
def mvalTruthy : MVal → Bool
  | .s v => v ≠ ""
  | .i v => v ≠ 0
  | .b v => v
  | .none => false
  | .list l => ¬ l.isEmpty
  | .dict d => ¬ d.isEmpty

/-- Python `a or b` on metadata values. -/
def mvalOr (a b : MVal) : MVal :=
  if mvalTruthy a then a else b

/-! ## AI analyst helpers (`src/adapters/ai_analyst.py`) -/

/-- `_truncate_str(value, max_chars)`. -/
def truncateStr (value : MVal) (maxChars : Nat) : Option String :=
  match value with
  | .s v =>
    let s := pyStrip v
    if s = "" then Option.none
    else if s.data.length ≤ maxChars then Option.some s
    else
      -- `s[: max_chars - 1].rstrip() + "…"`
      Option.some (⟨(s.data.take (maxChars - 1)).reverse.dropWhile isPySpace |>.reverse⟩ ++ "…")
  | _ => Option.none

/-- `_limit_list(value, max_items)`. -/
def limitList (value : MVal) (maxItems : Nat) : Option (List MVal) :=
  match value with
  | .list l => if l.isEmpty then Option.none else Option.some (l.take maxItems)
  | _ => Option.none

/-- `_compact_text_samples(value, max_items, max_chars_each)`. -/
def compactTextSamples (value : MVal) (maxItems maxCharsEach : Nat) : Option (List String) :=
  match limitList value maxItems with
  | Option.none => Option.none
  | Option.some items =>
    let out := items.filterMap (fun it => truncateStr it maxCharsEach)
    if out.isEmpty then Option.none else Option.some out

/-- Python regex `\s` (ASCII fragment): same set as `str.strip()`
whitespace. -/
def isRegexSpace (c : Char) : Bool := isPySpace c

/-- Matcher for the multiline regex `(?m)^##\s*<d>\.`: somewhere in the
text, at the start or just after a newline, `##`, then whitespace, then
the digit `d` and a literal dot. -/
def hasSectionAnchor (digit : Char) (text : String) : Bool :=
  let tryHere : List Char → Bool := fun l =>
    match l with
    | '#' :: '#' :: r =>
      match r.dropWhile isRegexSpace with
      | d :: '.' :: _ => d = digit
      | _ => false
    | _ => false
  let rec go : List Char → Bool → Bool
    | [], _ => false
    | c :: rest, atStart => (atStart && tryHere (c :: rest)) || go rest (c = '
')
  go text.data true

/-- `_summary_has_six_sections(summary, language)`. -/
def summaryHasSixSections (summary : String) (language : Language) : Bool :=
  let text := pyStrip summary
  if text = "" then false
  else if language = Language.spanish then
    hasSectionAnchor '1' text && hasSectionAnchor '6' text
  else
    hasSectionAnchor '1' text && hasSectionAnchor '6' text

/-- The validated `_AIReportPayload`. -/
structure AIReportPayload where
  summary : String
  highlights : List String := []
  confidence : Q := ⟨1, 2⟩
  deriving Repr, DecidableEq

/-- The `placeholders` set of `_looks_like_template_response`. -/
def templatePlaceholders : List String :=
  ["3-5 high-impact deductions.",
   "lista de 3-5 deducciones rápidas.",
   "3-5 high impact deductions."]

/-- The boilerplate-summary test of `_looks_like_template_response`. -/
def templateBoilerplate (parsed : AIReportPayload) : Bool :=
  pyLower (pyStrip parsed.summary) = "markdown text with the six sections above."
    || pyLower (pyStrip parsed.summary) = "texto en markdown con las seis secciones."

/-- `_looks_like_template_response(parsed)`. -/
def looksLikeTemplateResponse (parsed : AIReportPayload) : Bool :=
  let summary := pyLower (pyStrip parsed.summary)
  if summary = "markdown text with the six sections above."
      ∨ summary = "texto en markdown con las seis secciones." then true
  else
    let hl := parsed.highlights.map (fun x => pyLower (pyStrip x))
    if hl.isEmpty then true
    else if (match hl with
             | [h0] => templatePlaceholders.contains h0
             | _ => false) then true
    else if hl.any (fun x => templatePlaceholders.contains x) then true
    else false

/-- The condition under which `analyze_person` treats a parsed attempt as
a recoverable template failure:
`_looks_like_template_response(parsed) or missing_sections`. -/
def templateRetryCondition (parsed : AIReportPayload) (language : Language) : Bool :=
  looksLikeTemplateResponse parsed || !(summaryHasSixSections parsed.summary language)

/-- The final-confidence expression of `analyze_person` (the nested
conditional building `AnalysisReport.confidence`). -/
def reportConfidence (hasText hasTimestamps : Bool) (nProfiles : Nat) (c : Q) : Q :=
  if ¬hasText ∧ ¬hasTimestamps ∧ 3 ≤ nProfiles then qMin c ⟨55, 100⟩
  else if ¬hasText ∧ ¬hasTimestamps then qMin c ⟨35, 100⟩
  else c

/-- `_is_local_base_url(url)`. -/
def isLocalBaseUrl (url : String) : Bool :=
  let url_l := pyLower (pyStrip url)
  pyStartsWith url_l "http://localhost" || pyStartsWith url_l "http://127.0.0.1" ||
    pyStartsWith url_l "http://0.0.0.0"

/-- Outcome of the API-key check at the top of `analyze_person`. -/
inductive KeyPolicy where
  | proceed (apiKey : String)
  | heuristicFallback (reason : String)
  deriving Repr, DecidableEq

/-- The missing-API-key policy of `analyze_person` (lines 498–505 of
`ai_analyst.py`). -/
def missingKeyPolicy (aiApiKey : Option String) (aiBaseUrl : String) : KeyPolicy :=
  let apiKey := pyStrip (aiApiKey.getD "")
  if apiKey = "" then
    if isLocalBaseUrl aiBaseUrl then KeyPolicy.proceed "local"
    else KeyPolicy.heuristicFallback "missing_ai_api_key"
  else KeyPolicy.proceed apiKey

/-! ## `_heuristic_analysis` (`src/adapters/ai_analyst.py`) -/

/-- The `breaches_list` extraction inside `_heuristic_analysis`:
`metadata["breaches"]["breaches"]` filtered to dict entries. -/
def heuristicBreachList (md : MetaDict) : List MetaDict :=
  match dictGet md "breaches" with
  | .dict dump =>
    match dictGet dump "breaches" with
    | .list maybe => maybe.filterMap fun b =>
        match b with
        | .dict bd => Option.some bd
        | _ => Option.none
    | _ => []
  | _ => []

/-- One entry of `breach_lines` for an `hibp` profile. -/
def heuristicBreachLine (p : SocialProfile) : String :=
  let md := p.metadata
  let status := dictGet md "status_code"
  let breaches := heuristicBreachList md
  if status ≠ .i 200 then
    "- " ++ p.username ++ ": status=" ++ mvalPyStr status
      ++ " error=" ++ mvalPyStr (dictGet md "error")
  else if breaches.isEmpty then
    "- " ++ p.username ++ ": 0 breaches"
  else
    let titles := String.intercalate ", "
      (((breaches.take 6).filter fun b => mvalTruthy (dictGet b "title")).map
        fun b => mvalPyStr (mvalOr (dictGet b "title") (.s "")))
    let more := if breaches.length ≤ 6 then ""
      else " (+" ++ toString (breaches.length - 6) ++ " more)"
    "- " ++ p.username ++ ": " ++ toString breaches.length ++ " breaches → " ++ titles ++ more

/-- `breach_lines` of `_heuristic_analysis`. -/
def heuristicBreachLines (profiles : List SocialProfile) : List String :=
  (profiles.filter fun p => pyLower p.network_name = "hibp").map heuristicBreachLine

/-- `_heuristic_analysis(person, language, reason)`. -/
def heuristicAnalysis (person : PersonEntity) (language : Language) (reason : String) :
    AnalysisReport :=
  let profiles := person.profiles
  let confirmed := profiles.filter (·.existe)
  let networks := sortedDedup
    ((confirmed.filter fun p => p.network_name ≠ "").map fun p => pyLower p.network_name)
  let emails := sortedDedup
    ((profiles.filter fun p => isSubstr "@" p.username).map (·.username))
  let breachLines := heuristicBreachLines profiles
  let networksText := if networks.isEmpty then "N/A" else String.intercalate ", " networks
  let emailsText := if emails.isEmpty then "N/A" else String.intercalate ", " emails
  if language = Language.spanish then
    let summary : List String :=
      ["## 1. 🆔 Identidad y demografía (inferencias)",
       "Evidencia insuficiente para inferir atributos personales de forma responsable.",
       "\n## 2. 🌍 Análisis geo-temporal",
       "No hay timestamps suficientes para triangular zona horaria.",
       "\n## 3. 🧠 Perfil psicológico (OCEAN)",
       "No se observa contenido textual confiable para un perfil psicológico.",
       "\n## 4. 💻 Perfil técnico/profesional",
       "Perfiles confirmados: " ++ toString confirmed.length ++ " / "
         ++ toString profiles.length ++ ".",
       "Redes confirmadas: " ++ networksText ++ ".",
       "\n## 5. ⚖️ Ideología y valores",
       "Sin evidencia suficiente para inferencias ideológicas.",
       "\n## 6. ⚠️ OpSec / superficie de ataque",
       "Emails observados: " ++ emailsText ++ "."]
    let summary := if breachLines.isEmpty then summary
      else summary ++ ["\nResultados de brechas (HIBP):\n" ++ String.intercalate "\n" breachLines]
    let summary := summary
      ++ ["\n> Nota: análisis heurístico (sin IA remota). Motivo: " ++ reason ++ "."]
    let highlights :=
      ["Perfiles confirmados: " ++ toString confirmed.length ++ ".",
       "Redes confirmadas: " ++ networksText ++ "."]
    let highlights := if breachLines.isEmpty then highlights
      else highlights ++ ["Se detectaron resultados de HIBP (breach-check)."]
    { summary := pyStrip (String.intercalate "\n" summary)
      highlights := highlights
      confidence := ⟨25, 100⟩
      model := Option.some "heuristic"
      rawReason := Option.some reason }
  else
    let summary : List String :=
      ["## 1. 🆔 Identity & demographics (inference)",
       "Insufficient evidence to infer personal attributes responsibly.",
       "\n## 2. 🌍 Geo-temporal analysis",
       "Not enough timestamps to triangulate timezone.",
       "\n## 3. 🧠 Psychological profile (OCEAN)",
       "No reliable textual evidence for a psychological profile.",
       "\n## 4. 💻 Technical/professional profile",
       "Confirmed profiles: " ++ toString confirmed.length ++ " / "
         ++ toString profiles.length ++ ".",
       "Confirmed networks: " ++ networksText ++ ".",
       "\n## 5. ⚖️ Ideology & values",
       "Insufficient evidence for ideological inferences.",
       "\n## 6. ⚠️ OpSec / attack surface",
       "Observed emails: " ++ emailsText ++ "."]
    let summary := if breachLines.isEmpty then summary
      else summary ++ ["\nHIBP breach results:\n" ++ String.intercalate "\n" breachLines]
    let summary := summary
      ++ ["\n> Note: heuristic analysis (no remote AI). Reason: " ++ reason ++ "."]
    let highlights :=
      ["Confirmed profiles: " ++ toString confirmed.length ++ ".",
       "Confirmed networks: " ++ networksText ++ "."]
    let highlights := if breachLines.isEmpty then highlights
      else highlights ++ ["HIBP breach-check returned results."]
    { summary := pyStrip (String.intercalate "\n" summary)
      highlights := highlights
      confidence := ⟨25, 100⟩
      model := Option.some "heuristic"
      rawReason := Option.some reason }

/-! ## `_sanitize_summary_markdown` (`src/adapters/ai_analyst.py`) -/

/-- Python `str.rstrip()` on characters. -/
def pyRStripList (l : List Char) : List Char :=
  (l.reverse.dropWhile isPySpace).reverse

/-- Python `str.rstrip()`. -/
def pyRStrip (s : String) : String :=
  ⟨pyRStripList s.data⟩

/-- Leftmost multiline search: attempts `tryHere` (which returns the match
length) at the string start and after every newline, returning the match
span `(start, end)`. -/
def searchMultiline (tryHere : List Char → Option Nat) (text : List Char) :
    Option (Nat × Nat) :=
  let rec go : List Char → Bool → Nat → Option (Nat × Nat)
    | [], _, _ => Option.none
    | c :: rest, atStart, idx =>
      match (if atStart then tryHere (c :: rest) else Option.none) with
      | Option.some len => Option.some (idx, idx + len)
      | Option.none => go rest (c = '\n') (idx + 1)
  go text true 0

/-- Matcher for `^##\s*6\.` at the current position (returns match
length). -/
def trySection6 : List Char → Option Nat
  | '#' :: '#' :: r =>
    let ws := r.takeWhile isRegexSpace
    match r.drop ws.length with
    | '6' :: '.' :: _ => Option.some (2 + ws.length + 2)
    | _ => Option.none
  | _ => Option.none

/-- Matcher for `^##\s+` at the current position. -/
def tryNextHeading : List Char → Option Nat
  | '#' :: '#' :: r =>
    let ws := r.takeWhile isRegexSpace
    if ws.length ≥ 1 then Option.some (2 + ws.length) else Option.none
  | _ => Option.none

/-- ASCII word character (for the regex `\b` boundary). -/
def isWordChar (c : Char) : Bool :=
  ('a' ≤ c ∧ c ≤ 'z') || ('A' ≤ c ∧ c ≤ 'Z') || ('0' ≤ c ∧ c ≤ '9') || c = '_'

/-- Matcher for `(?i)^##\s*(highlights|confidence)\b` at the current
position. -/
def tryJunkHeading : List Char → Option Nat
  | '#' :: '#' :: r =>
    let ws := r.takeWhile isRegexSpace
    let rest := (r.drop ws.length).map pyLowerChar
    let tryWord : String → Option Nat := fun w =>
      if w.data.isPrefixOf rest then
        match rest.drop w.data.length with
        | [] => Option.some (2 + ws.length + w.data.length)
        | c :: _ => if isWordChar c then Option.none
                    else Option.some (2 + ws.length + w.data.length)
      else Option.none
    (tryWord "highlights").orElse fun _ => tryWord "confidence"
  | _ => Option.none

/-- `_sanitize_summary_markdown(text)`. -/
def sanitizeSummaryMarkdown (text : String) : String :=
  let summary := pyStrip text
  if summary = "" then summary
  else
    let summary :=
      match searchMultiline trySection6 summary.data with
      | Option.some (_, e6) =>
        let tail := summary.data.drop e6
        match searchMultiline tryNextHeading tail with
        | Option.some (ns, _) => ⟨pyRStripList (summary.data.take (e6 + ns))⟩
        | Option.none => summary
      | Option.none => summary
    match searchMultiline tryJunkHeading summary.data with
    | Option.some (js, _) => ⟨pyRStripList (summary.data.take js)⟩
    | Option.none => summary

/-! ## JSON values (`json.loads` / `json.dumps` fragment)

`json.loads` is the CPython strict decoder: objects, arrays, strings with
the standard escapes, numbers, `true`/`false`/`null` and the
`NaN`/`Infinity`/`-Infinity` extensions; whitespace is space, tab,
newline, carriage return.  Numbers are embedded as rationals (ints and
decimal/exponent literals are exact). -/

inductive JVal where
  | null
  | jb (b : Bool)
  | num (q : Q)
  | nan
  | inf
  | ninf
  | str (s : String)
  | arr (l : List JVal)
  | obj (fields : List (String × JVal))
  deriving Repr

def jsonWs (c : Char) : Bool :=
  c = ' ' || c = '\t' || c = '\n' || c = '\r'

def skipJsonWs (l : List Char) : List Char :=
  l.dropWhile jsonWs

def hexVal (c : Char) : Option Nat :=
  if '0' ≤ c ∧ c ≤ '9' then Option.some (c.toNat - 48)
  else if 'a' ≤ c ∧ c ≤ 'f' then Option.some (c.toNat - 87)
  else if 'A' ≤ c ∧ c ≤ 'F' then Option.some (c.toNat - 55)
  else Option.none

/-- JSON string body after the opening quote: returns the decoded
characters and the input remaining after the closing quote. -/
def parseJStringBody : List Char → Option (List Char × List Char)
  | [] => Option.none
  | '"' :: rest => Option.some ([], rest)
  | '\\' :: 'u' :: h1 :: h2 :: h3 :: h4 :: rest => do
    let a ← hexVal h1
    let b ← hexVal h2
    let c ← hexVal h3
    let d ← hexVal h4
    let (cs, r) ← parseJStringBody rest
    pure (Char.ofNat (a * 4096 + b * 256 + c * 16 + d) :: cs, r)
  | '\\' :: e :: rest => do
    let c ← match e with
      | '"' => Option.some '"'
      | '\\' => Option.some '\\'
      | '/' => Option.some '/'
      | 'b' => Option.some (Char.ofNat 8)
      | 'f' => Option.some (Char.ofNat 12)
      | 'n' => Option.some '\n'
      | 'r' => Option.some '\r'
      | 't' => Option.some '\t'
      | _ => Option.none
    let (cs, r) ← parseJStringBody rest
    pure (c :: cs, r)
  | c :: rest =>
    if c.toNat < 32 then Option.none
    else do
      let (cs, r) ← parseJStringBody rest
      pure (c :: cs, r)

def isDigitChar (c : Char) : Bool := '0' ≤ c ∧ c ≤ '9'

def digitsToNat (l : List Char) : Nat :=
  l.foldl (fun a c => a * 10 + (c.toNat - 48)) 0

/-- JSON number starting at the current position. -/
def parseJNumber (l : List Char) : Option (Q × List Char) :=
  let (neg, l1) := match l with
    | '-' :: r => (true, r)
    | _ => (false, l)
  -- strict JSON int part: `0` alone, or a nonzero digit followed by digits
  let intDigits : List Char := match l1 with
    | '0' :: _ => ['0']
    | c :: _ => if isDigitChar c then l1.takeWhile isDigitChar else []
    | [] => []
  if intDigits.isEmpty then Option.none
  else
    let l2 := l1.drop intDigits.length
    let (fracDigits, l3) := match l2 with
      | '.' :: r =>
        let d := r.takeWhile isDigitChar
        (d, r.drop d.length)
      | _ => ([], l2)
    if (match l2 with | '.' :: _ => fracDigits.isEmpty | _ => false) then Option.none
    else
      let (expOk, expVal, l4) : Bool × Int × List Char := match l3 with
        | 'e' :: r | 'E' :: r =>
          let (esign, r1) : Int × List Char := match r with
            | '+' :: rr => (1, rr)
            | '-' :: rr => (-1, rr)
            | _ => (1, r)
          let ed := r1.takeWhile isDigitChar
          if ed.isEmpty then (false, 0, l3)
          else (true, esign * (digitsToNat ed : Int), r1.drop ed.length)
        | _ => (true, 0, l3)
      if !expOk then Option.none
      else
        let mantissa : Nat :=
          digitsToNat intDigits * 10 ^ fracDigits.length + digitsToNat fracDigits
        let signedNum : Int := if neg then -(mantissa : Int) else (mantissa : Int)
        let scale : Nat := 10 ^ expVal.natAbs
        let v : Q :=
          if 0 ≤ expVal then ⟨signedNum * (scale : Int), 10 ^ fracDigits.length⟩
          else ⟨signedNum, 10 ^ fracDigits.length * scale⟩
        Option.some (v, l4)

mutual

/-- One JSON value (with leading whitespace), strict `json.loads`
grammar. -/
def parseJVal : Nat → List Char → Option (JVal × List Char)
  | 0, _ => Option.none
  | fuel + 1, l =>
    match skipJsonWs l with
    | '\x7b' :: rest => parseJObj fuel rest
    | '[' :: rest => parseJArr fuel rest
    | '"' :: rest => do
      let (cs, r) ← parseJStringBody rest
      pure (JVal.str ⟨cs⟩, r)
    | 't' :: 'r' :: 'u' :: 'e' :: rest => Option.some (JVal.jb true, rest)
    | 'f' :: 'a' :: 'l' :: 's' :: 'e' :: rest => Option.some (JVal.jb false, rest)
    | 'n' :: 'u' :: 'l' :: 'l' :: rest => Option.some (JVal.null, rest)
    | 'N' :: 'a' :: 'N' :: rest => Option.some (JVal.nan, rest)
    | 'I' :: 'n' :: 'f' :: 'i' :: 'n' :: 'i' :: 't' :: 'y' :: rest =>
      Option.some (JVal.inf, rest)
    | '-' :: 'I' :: 'n' :: 'f' :: 'i' :: 'n' :: 'i' :: 't' :: 'y' :: rest =>
      Option.some (JVal.ninf, rest)
    | rest => do
      let (q, r) ← parseJNumber rest
      pure (JVal.num q, r)

/-- Object members after the opening brace. -/
def parseJObj : Nat → List Char → Option (JVal × List Char)
  | 0, _ => Option.none
  | fuel + 1, l =>
    match skipJsonWs l with
    | '\x7d' :: rest => Option.some (JVal.obj [], rest)
    | '"' :: rest => do
      let (k, r1) ← parseJStringBody rest
      match skipJsonWs r1 with
      | ':' :: r2 => do
        let (v, r3) ← parseJVal fuel r2
        parseJObjRest fuel r3 [(⟨k⟩, v)]
      | _ => Option.none
    | _ => Option.none

/-- `, "k": v`* `\x7d` after the first object member. -/
def parseJObjRest : Nat → List Char → List (String × JVal) → Option (JVal × List Char)
  | 0, _, _ => Option.none
  | fuel + 1, l, acc =>
    match skipJsonWs l with
    | '\x7d' :: rest => Option.some (JVal.obj acc, rest)
    | ',' :: r1 =>
      match skipJsonWs r1 with
      | '"' :: r2 => do
        let (k, r3) ← parseJStringBody r2
        match skipJsonWs r3 with
        | ':' :: r4 => do
          let (v, r5) ← parseJVal fuel r4
          parseJObjRest fuel r5 (acc ++ [(⟨k⟩, v)])
        | _ => Option.none
      | _ => Option.none
    | _ => Option.none

/-- Array items after the opening bracket. -/
def parseJArr : Nat → List Char → Option (JVal × List Char)
  | 0, _ => Option.none
  | fuel + 1, l =>
    match skipJsonWs l with
    | ']' :: rest => Option.some (JVal.arr [], rest)
    | _ => do
      let (v, r) ← parseJVal fuel l
      parseJArrRest fuel r [v]

/-- `, v`* `]` after the first array item. -/
def parseJArrRest : Nat → List Char → List JVal → Option (JVal × List Char)
  | 0, _, _ => Option.none
  | fuel + 1, l, acc =>
    match skipJsonWs l with
    | ']' :: rest => Option.some (JVal.arr acc, rest)
    | ',' :: r1 => do
      let (v, r2) ← parseJVal fuel r1
      parseJArrRest fuel r2 (acc ++ [v])
    | _ => Option.none

end

/-- `json.loads(s)`: one value, optional surrounding whitespace, nothing
else. -/
def pyJsonParse (s : String) : Option JVal := do
  let (v, rest) ← parseJVal (s.data.length + 2) s.data
  if (skipJsonWs rest).isEmpty then pure v else Option.none

/-- Does `json.loads(s)` succeed? -/
def pyJsonValid (s : String) : Bool :=
  (pyJsonParse s).isSome

/-- Python `dict` lookup on parsed JSON object members (later duplicate
keys override earlier ones, as in `json.loads`). -/
def objGet (fields : List (String × JVal)) (k : String) : Option JVal :=
  (fields.reverse.find? (fun kv => kv.1 = k)).map (fun kv => kv.2)

/-! ## `_extract_json_object` (`src/adapters/ai_analyst.py`)

`_JSON_FENCE_RE = re.compile(r"```(?:json)?\s*(\{.*?\})\s*```",
re.DOTALL | re.IGNORECASE)`.  The searcher below implements the
backtracking semantics of that fixed pattern: leftmost start position
wins; the optional `json` is tried greedily; `\s*` before `{` and before
the closing fence is deterministic (whitespace and the required next
character are disjoint); `.*?` lazily extends until the first closing
brace from which `\s*`+three-backticks matches. -/

/-- Is the current position `\s*` followed by three backticks? -/
def fenceTail (l : List Char) : Bool :=
  "```".data.isPrefixOf (l.dropWhile isRegexSpace)

/-- Lazy `(\{.*?\})\s*` + fence: `body` is the input just after the
opening brace; returns the group-1 content. -/
def fenceBody : List Char → List Char → Option (List Char)
  | acc, c :: rest =>
    if c = '\x7d' ∧ fenceTail rest then
      Option.some ('\x7b' :: acc.reverse ++ ['\x7d'])
    else
      fenceBody (c :: acc) rest
  | _, [] => Option.none

/-- `\s*(\{.*?\})\s*` + fence at the current position. -/
def fenceAfterTicks (l : List Char) : Option (List Char) :=
  match l.dropWhile isRegexSpace with
  | '\x7b' :: body => fenceBody [] body
  | _ => Option.none

/-- The whole fence pattern anchored at the current position (which must
start with three backticks). -/
def tryFenceAt : List Char → Option (List Char)
  | '`' :: '`' :: '`' :: r =>
    if "json".data.isPrefixOf (r.map pyLowerChar) then
      (fenceAfterTicks (r.drop 4)).orElse fun _ => fenceAfterTicks r
    else
      fenceAfterTicks r
  | _ => Option.none

/-- `_JSON_FENCE_RE.search(text)`, returning group 1. -/
def fenceSearch (text : String) : Option String :=
  let rec go : List Char → Option String
    | [] => Option.none
    | c :: rest =>
      match tryFenceAt (c :: rest) with
      | Option.some g => Option.some ⟨g⟩
      | Option.none => go rest
  go text.data

/-- Python `str.find(ch)` (first index, scanning left to right). -/
def strFind (l : List Char) (c : Char) : Option Nat :=
  let rec go : List Char → Nat → Option Nat
    | [], _ => Option.none
    | x :: rest, i => if x = c then Option.some i else go rest (i + 1)
  go l 0

/-- Python `str.rfind(ch)` (last index). -/
def strRFind (l : List Char) (c : Char) : Option Nat :=
  (strFind l.reverse c).map (fun i => l.length - 1 - i)

/-- `_extract_json_object(text)`: `none` models the raised `ValueError`.
Branches, in order: fenced block; whole stripped body brace-delimited;
first `\x7b` to last `\x7d` if that substring parses as JSON. -/
def extractJsonObject (text : String) : Option String :=
  match fenceSearch text with
  | Option.some g => Option.some (pyStrip g)
  | Option.none =>
    let stripped := pyStrip text
    if pyStartsWith stripped "\x7b" ∧ pyEndsWith stripped "\x7d" then
      Option.some stripped
    else
      match strFind stripped.data '\x7b', strRFind stripped.data '\x7d' with
      | Option.some s, Option.some e =>
        if s < e then
          let candidate : String := ⟨(stripped.data.drop s).take (e + 1 - s)⟩
          if pyJsonValid candidate then Option.some candidate else Option.none
        else Option.none
      | _, _ => Option.none

/-! ## `_AIReportPayload.model_validate` (`src/adapters/ai_analyst.py`)

Pydantic v2 lax-mode validation of the extracted JSON object:
`summary: str (min_length 1)`, `highlights: list[str] = []`,
`confidence: float = 0.5 (ge 0, le 1)`; numeric strings are coerced to
floats, everything else raises `ValidationError` (a `ValueError`
subclass, so the caller's parse-recovery path handles it). -/

/-- Pydantic lax string-to-float coercion (optional sign, decimal
digits, optional fraction and exponent). -/
def parseLaxFloat (s : String) : Option Q :=
  let l := pyStripList s.data
  let (neg, l1) : Bool × List Char := match l with
    | '-' :: r => (true, r)
    | '+' :: r => (false, r)
    | _ => (false, l)
  let intDigits := l1.takeWhile isDigitChar
  let l2 := l1.drop intDigits.length
  let (fracDigits, l3) : List Char × List Char := match l2 with
    | '.' :: r =>
      let d := r.takeWhile isDigitChar
      (d, r.drop d.length)
    | _ => ([], l2)
  if intDigits.isEmpty ∧ fracDigits.isEmpty then Option.none
  else
    let (expOk, expVal, l4) : Bool × Int × List Char := match l3 with
      | 'e' :: r | 'E' :: r =>
        let (esign, r1) : Int × List Char := match r with
          | '+' :: rr => (1, rr)
          | '-' :: rr => (-1, rr)
          | _ => (1, r)
        let ed := r1.takeWhile isDigitChar
        if ed.isEmpty then (false, 0, l3)
        else (true, esign * (digitsToNat ed : Int), r1.drop ed.length)
      | _ => (true, 0, l3)
    if !expOk ∨ !l4.isEmpty then Option.none
    else
      let mantissa : Nat :=
        digitsToNat intDigits * 10 ^ fracDigits.length + digitsToNat fracDigits
      let signedNum : Int := if neg then -(mantissa : Int) else (mantissa : Int)
      let scale : Nat := 10 ^ expVal.natAbs
      Option.some (if 0 ≤ expVal then (⟨signedNum * (scale : Int), 10 ^ fracDigits.length⟩ : Q)
        else ⟨signedNum, 10 ^ fracDigits.length * scale⟩)

/-- `summary: str = Field(..., min_length=1)`. -/
def validateSummaryField (o : Option JVal) : Option String :=
  match o with
  | Option.some (.str s) => if s ≠ "" then Option.some s else Option.none
  | _ => Option.none

/-- `highlights: list[str] = Field(default_factory=list)`. -/
def validateHighlightsField (o : Option JVal) : Option (List String) :=
  match o with
  | Option.none => Option.some []
  | Option.some (.arr items) =>
    items.mapM fun it =>
      match it with
      | .str s => Option.some s
      | _ => Option.none
  | Option.some _ => Option.none

/-- `confidence: float = Field(default=0.5, ge=0.0, le=1.0)`. -/
def validateConfidenceField (o : Option JVal) : Option Q :=
  match o with
  | Option.none => Option.some ⟨1, 2⟩
  | Option.some (.num q) =>
    if qLe ⟨0, 1⟩ q ∧ qLe q ⟨1, 1⟩ then Option.some q else Option.none
  | Option.some (.str s) =>
    match parseLaxFloat s with
    | Option.some q =>
      if qLe ⟨0, 1⟩ q ∧ qLe q ⟨1, 1⟩ then Option.some q else Option.none
    | Option.none => Option.none
  | Option.some _ => Option.none

/-- Validation of a parsed payload value; `none` models the raised
`ValidationError`. -/
def validatePayload (v : JVal) : Option AIReportPayload :=
  match v with
  | .obj fields => do
    let summary ← validateSummaryField (objGet fields "summary")
    let highlights ← validateHighlightsField (objGet fields "highlights")
    let confidence ← validateConfidenceField (objGet fields "confidence")
    pure { summary := summary, highlights := highlights, confidence := confidence }
  | _ => Option.none

/-! ## Evidence payload construction in `analyze_person` -/

/-- `str(url).split('?')[0]`. -/
def urlBeforeQuery (url : String) : String :=
  ⟨url.data.takeWhile (fun c => c ≠ '?')⟩

def optMVal : Option String → MVal
  | Option.none => MVal.none
  | Option.some s => MVal.s s

/-- `_extract_hibp_breaches(meta)`. -/
def extractHibpBreaches (meta : MetaDict) : Option MetaDict :=
  match dictGet meta "breaches" with
  | .dict dump =>
    match dictGet dump "breaches" with
    | .list items =>
      let breaches := items.filterMap fun it =>
        match it with
        | .dict bd => Option.some (MVal.dict
            [("title", mvalOr (dictGet bd "title") (dictGet bd "Title")),
             ("domain", mvalOr (dictGet bd "domain") (dictGet bd "Domain")),
             ("breach_date", mvalOr (dictGet bd "breach_date") (dictGet bd "BreachDate")),
             ("pwn_count", mvalOr (dictGet bd "pwn_count") (dictGet bd "PwnCount")),
             ("data_classes", mvalOr (dictGet bd "data_classes") (dictGet bd "DataClasses"))])
        | _ => Option.none
      Option.some [("count", .i breaches.length), ("top", .list (breaches.take 10))]
    | _ => Option.none
  | _ => Option.none

/-- The `profile_dict` built for one cleaned profile, before the
falsy-value filter. -/
def buildProfileDictRaw (p : SocialProfile) : MetaDict :=
  let meta := p.metadata
  let bioVal : MVal := if pyTruthy p.bio then .s (p.bio.getD "") else dictGet meta "bio"
  let langVal := mvalOr (dictGet meta "languages") (dictGet meta "tech_stack")
  let base : MetaDict :=
    [("network", .s p.network_name),
     ("username", .s p.username),
     ("url", .s (urlBeforeQuery p.url)),
     ("bio", optMVal (truncateStr bioVal 420)),
     ("location", optMVal (truncateStr
        (mvalOr (dictGet meta "location") (dictGet meta "location_claim")) 140)),
     ("signals", .dict
       [("display_name", optMVal (truncateStr
           (mvalOr (dictGet meta "name") (dictGet meta "display_name")) 160)),
        ("company", optMVal (truncateStr (dictGet meta "company") 160)),
        ("blog", optMVal (truncateStr
           (mvalOr (dictGet meta "blog") (dictGet meta "website")) 220)),
        ("created_at", optMVal (truncateStr
           (mvalOr (dictGet meta "created_at") (dictGet meta "created_utc")) 64)),
        ("followers", dictGet meta "followers"),
        ("following", dictGet meta "following"),
        ("public_repos", mvalOr (dictGet meta "public_repos") (dictGet meta "repos")),
        ("languages",
          match limitList langVal 25 with
          | Option.some l => .list l
          | Option.none => optMVal (truncateStr langVal 220))]),
     ("activity_timestamps",
       match limitList (mvalOr (dictGet meta "commits") (dictGet meta "timestamps")) 60 with
       | Option.some l => .list l
       | Option.none => MVal.none),
     ("text_samples",
       match compactTextSamples (mvalOr (dictGet meta "comments") (dictGet meta "texts"))
           16 320 with
       | Option.some l => .list (l.map MVal.s)
       | Option.none => MVal.none)]
  if pyLower p.network_name = "hibp" then
    match extractHibpBreaches meta with
    | Option.some hibp => base ++ [("hibp_breaches", .dict hibp)]
    | Option.none => base
  else base

/-- `profile_dict` after `{k: v for k, v in profile_dict.items() if v}`. -/
def buildProfileDict (p : SocialProfile) : MetaDict :=
  (buildProfileDictRaw p).filter (fun kv => mvalTruthy kv.2)

/-- `profiles_data` (per-profile dicts, capped at 30). -/
def buildProfilesData (profiles : List SocialProfile) : List MetaDict :=
  let d := profiles.map buildProfileDict
  if d.length > 30 then d.take 30 else d

/-- `has_text_samples` over the capped profile dicts. -/
def evidenceHasText (profilesData : List MetaDict) : Bool :=
  profilesData.any (fun d => mvalTruthy (dictGet d "text_samples"))

/-- `has_activity_timestamps` over the capped profile dicts. -/
def evidenceHasTimestamps (profilesData : List MetaDict) : Bool :=
  profilesData.any (fun d => mvalTruthy (dictGet d "activity_timestamps"))

/-! ## Prompts and self-correction messages (`ai_analyst.py`) -/

/-- `_build_system_prompt(Language.SPANISH)`. -/
def promptFullSpanish : String :=
  "ACTÚA COMO: Un Perfilador Criminalista y Experto en Inteligencia de Amenazas (CTI).\nTU OBJETIVO: Construir un reporte psicológico y conductual del objetivo basado en su huella digital.\nTU MÉTODO: Deducción lógica agresiva (Chain of Thought). No solo describas, INFIERE.\n\nANALIZA LAS SIGUIENTES 6 DIMENSIONES Y GENERA UN REPORTE EN FORMATO MARKDOWN:\n\n1. 🆔 IDENTIDAD Y DEMOGRAFÍA (Inferencia):\n   - ¿Nombre real probable?\n   - Rango de edad estimado (jerga, antigüedad de cuentas, referencias culturales).\n   - Género probable (patrones lingüísticos y pronombres).\n   - Nivel educativo estimado (gramática, complejidad técnica).\n\n2. 🌍 ANÁLISIS GEO-TEMPORAL (Crítico):\n   - Cruza timestamps de commits/posts/comentarios para triangular ZONA HORARIA REAL.\n   - Infiere rutina de sueño (búho nocturno vs alondra madrugadora).\n   - ¿Patrones que sugieran ubicación geográfica (actividad laboral vs fines de semana)?\n\n3. 🧠 PERFIL PSICOLÓGICO (Modelo OCEAN):\n   - Apertura: curiosidad y experimentación.\n   - Extraversión: nivel de interacción social.\n   - Responsabilidad: consistencia y orden en el trabajo/código.\n   - Neuroticismo: frustración, quejas, tono defensivo.\n   - Intereses obsesivos: temas o comunidades recurrentes.\n\n4. 💻 PERFIL TÉCNICO Y PROFESIONAL:\n   - Stack real (basado en actividad, no en lo que declara).\n   - Nivel de seniority (Junior, Mid, Senior, Script Kiddie).\n   - Arquetipo profesional (corporativo, freelance, investigador, hacker, creador, etc.).\n\n5. ⚖️ IDEOLOGÍA Y VALORES:\n   - Infiere inclinación política o ética a partir de comunidades, repositorios, publicaciones o likes.\n\n6. ⚠️ VECTORES DE ATAQUE (OpSec):\n   - Susceptibilidad a ingeniería social.\n   - Exposición de emails personales, empleadores o identidades reales.\n   - Higiene de seguridad (2FA, reutilización de alias, credenciales expuestas).\n   - Indicios de actividad maliciosa o hacking.\n\nIDIOMA DE RESPUESTA: Español neutro.\nFORMATO DE SALIDA (JSON ESTRICTO):\n\x7b\n  \"summary\": \"Texto en Markdown con las seis secciones.\",\n  \"highlights\": [\"Lista de 3-5 deducciones rápidas.\"],\n  \"confidence\": 0.0 a 1.0\n\x7d"

/-- `_build_system_prompt(Language.ENGLISH)`. -/
def promptFullEnglish : String :=
  "ROLE: Criminal Profiler and Threat Intelligence Analyst.\nOBJECTIVE: Build a psychological and behavioural report using public evidence.\nMETHOD: Aggressive logical deduction (Chain of Thought). Do not merely describe — infer.\n\nANALYSE THE FOLLOWING SIX DIMENSIONS AND PRODUCE A MARKDOWN REPORT:\n\n1. 🆔 IDENTITY & DEMOGRAPHICS (Inference):\n   - Probable real name.\n   - Estimated age range (slang, account age, cultural references).\n   - Probable gender (linguistic cues, pronouns).\n   - Education level inferred from grammar, technical depth, writing quality.\n\n2. 🌍 GEO-TEMPORAL ANALYSIS (Critical):\n   - Cross activity timestamps to triangulate REAL TIMEZONE.\n   - Infer sleep routine (night owl vs early bird).\n   - Highlight patterns suggesting geography (workdays vs weekends).\n\n3. 🧠 PSYCHOLOGICAL PROFILE (OCEAN Model):\n   - Openness: curiosity and experimentation.\n   - Extraversion: level of social interaction.\n   - Conscientiousness: consistency and hygiene in output.\n   - Neuroticism: frustration, complaints, defensive tone.\n   - Obsessive interests: recurring themes or communities.\n\n4. 💻 TECHNICAL / PROFESSIONAL PROFILE:\n   - Real stack (evidence-based).\n   - Seniority estimate (Junior, Mid, Senior, Script Kiddie).\n   - Role archetype (corporate dev, freelancer, researcher, hacker, creator, etc.).\n\n5. ⚖️ IDEOLOGY & VALUES:\n   - Infer political or ethical leaning from communities, starred repos, publications or likes.\n\n6. ⚠️ ATTACK SURFACE (OpSec):\n   - Susceptibility to social engineering.\n   - Exposure of personal emails, employers, real identities.\n   - Security hygiene (2FA, alias reuse, credential leaks).\n   - Any hints of malicious or hacking activity.\n\nOUTPUT LANGUAGE: English only.\nOUTPUT FORMAT (STRICT JSON):\n\x7b\n  \"summary\": \"Markdown text with the six sections above.\",\n  \"highlights\": [\"3-5 high-impact deductions.\"],\n  \"confidence\": 0.0 to 1.0\n\x7d"

/-- `_build_system_prompt_compact(Language.SPANISH)`. -/
def promptCompactSpanish : String :=
  "ACTÚA COMO: Perfilador Criminalista y Analista CTI.\nOBJETIVO: Reporte psicológico y conductual desde huella digital.\nMÉTODO: Deducción lógica agresiva (Chain of Thought). INFIERE si hay evidencia; si no, dilo.\n\nENTREGA: Markdown con estas 6 secciones EXACTAS (encabezados '## 1.' a '## 6.'): \n## 1. 🆔 Identidad y demografía (inferencia)\n## 2. 🌍 Análisis geo-temporal (zona horaria/rutina)\n## 3. 🧠 Perfil psicológico (OCEAN)\n## 4. 💻 Perfil técnico/profesional\n## 5. ⚖️ Ideología y valores\n## 6. ⚠️ Vectores de ataque (OpSec)\n\nFORMATO DE SALIDA: JSON ESTRICTO (sin texto extra):\n\x7b\n  \"summary\": \"Markdown con las 6 secciones.\",\n  \"highlights\": [\"3-5 deducciones basadas en evidencia\"],\n  \"confidence\": 0.0 a 1.0\n\x7d"

/-- `_build_system_prompt_compact(Language.ENGLISH)`. -/
def promptCompactEnglish : String :=
  "ROLE: Criminal Profiler and CTI analyst.\nOBJECTIVE: Psychological/behavioural report from public footprint.\nMETHOD: Aggressive logical deduction (Chain of Thought). Infer when grounded; otherwise say insufficient evidence.\n\nDELIVER: Markdown with these 6 EXACT sections (headings '## 1.' through '## 6.'): \n## 1. 🆔 Identity & demographics (inference)\n## 2. 🌍 Geo-temporal analysis (timezone/routine)\n## 3. 🧠 Psychological profile (OCEAN)\n## 4. 💻 Technical/professional profile\n## 5. ⚖️ Ideology & values\n## 6. ⚠️ Attack surface (OpSec)\n\nOUTPUT FORMAT: STRICT JSON only (no extra text):\n\x7b\n  \"summary\": \"Markdown with the 6 sections.\",\n  \"highlights\": [\"3-5 evidence-grounded deductions\"],\n  \"confidence\": 0.0 to 1.0\n\x7d"

/-- Spanish correction message when the six sections are missing. -/
def fixEsMissing : String :=
  "No seguiste el formato requerido. Reescribe SOLO el JSON válido: 'summary' debe ser Markdown e incluir las 6 secciones con encabezados '## 1.' hasta '## 6.' y 'highlights' debe ser una lista real basada en la evidencia recibida."

/-- Spanish correction message for a template response. -/
def fixEsTemplate : String :=
  "Tu JSON es un template (valores de ejemplo). Reescribe SOLO el JSON con contenido real: 'summary' debe incluir las 6 secciones completas y 'highlights' debe ser una lista real basada en la evidencia recibida."

/-- English correction message when the six sections are missing. -/
def fixEnMissing : String :=
  "You did not follow the required format. Rewrite ONLY valid JSON: 'summary' must be Markdown and include all six sections with headings '## 1.' through '## 6.' and 'highlights' must be a real list grounded in the provided evidence."

/-- English correction message for a template response. -/
def fixEnTemplate : String :=
  "Your JSON is a template (example values). Rewrite ONLY the JSON with real content: 'summary' must include all 6 sections and 'highlights' must be a real list grounded in the provided evidence."

/-- Spanish correction message for invalid JSON. -/
def fixEsParse : String :=
  "Tu respuesta no fue un JSON válido. Reescribe SOLO el JSON válido (sin texto extra ni fences)."

/-- English correction message for invalid JSON. -/
def fixEnParse : String :=
  "Your response was not valid JSON. Rewrite ONLY valid JSON (no extra text, no fences)."

/-! ## Model/prompt selection and provider-error classification -/

/-- `_should_use_compact_prompt(base_url, model)`. -/
def shouldUseCompactPrompt (baseUrl model : String) : Bool :=
  let base := pyLower baseUrl
  let m := pyLower model
  if ¬ isSubstr "api.groq.com" base then false
  else isSubstr "8b" m || isSubstr "instant" m

/-- `_max_tokens_for_model(model)`. -/
def maxTokensForModel (model : String) : Nat :=
  let m := pyLower model
  if isSubstr "8b" m || isSubstr "instant" m then 1100 else 1800

/-- `_looks_like_model_rejection(exc)` over `str(exc)`. -/
def looksLikeModelRejection (msg : String) : Bool :=
  let m := pyLower msg
  ["model", "not found", "does not exist", "unsupported"].any fun t => isSubstr t m

/-- `fallback_model` chosen before the retry loop: only for Groq hosts. -/
def fallbackModelFor (baseUrl : String) : Option String :=
  if isSubstr "api.groq.com" (pyLower baseUrl) then Option.some "llama-3.1-8b-instant"
  else Option.none

def buildSystemPrompt : Language → String
  | Language.spanish => promptFullSpanish
  | Language.english => promptFullEnglish

def buildSystemPromptCompact : Language → String
  | Language.spanish => promptCompactSpanish
  | Language.english => promptCompactEnglish

/-- The prompt-variant selection used both initially and after a model
fallback. -/
def selectSystemPrompt (baseUrl model : String) (language : Language) : String :=
  if shouldUseCompactPrompt baseUrl model then buildSystemPromptCompact language
  else buildSystemPrompt language

def languageValue : Language → String
  | Language.english => "en"
  | Language.spanish => "es"

/-! ## `json.dumps` (compact fragment used for the user payload) -/

def jsonEscapeChar (c : Char) : List Char :=
  if c = '"' then ['\\', '"']
  else if c = '\\' then ['\\', '\\']
  else if c = '\n' then ['\\', 'n']
  else if c = '\t' then ['\\', 't']
  else if c = '\r' then ['\\', 'r']
  else if c.toNat = 8 then ['\\', 'b']
  else if c.toNat = 12 then ['\\', 'f']
  else if c.toNat < 32 then
    ['\\', 'u', '0', '0', hexDigitUpper (c.toNat / 16), hexDigitUpper (c.toNat % 16)]
  else [c]

def jsonDumpStr (s : String) : String :=
  "\"" ++ ⟨s.data.flatMap jsonEscapeChar⟩ ++ "\""

mutual

/-- `json.dumps(v, ensure_ascii=False)` with default separators.  The
modelled payloads only contain integral numbers; a non-integral rational
is rendered as an exact fraction. -/
def jsonDump : JVal → String
  | .null => "null"
  | .jb true => "true"
  | .jb false => "false"
  | .nan => "NaN"
  | .inf => "Infinity"
  | .ninf => "-Infinity"
  | .num q => if q.den = 1 then toString q.num else toString q.num ++ "/" ++ toString q.den
  | .str s => jsonDumpStr s
  | .arr l => "[" ++ jsonDumpArr l ++ "]"
  | .obj fields => "\x7b" ++ jsonDumpObj fields ++ "\x7d"

def jsonDumpArr : List JVal → String
  | [] => ""
  | [x] => jsonDump x
  | x :: rest => jsonDump x ++ ", " ++ jsonDumpArr rest

def jsonDumpObj : List (String × JVal) → String
  | [] => ""
  | [(k, v)] => jsonDumpStr k ++ ": " ++ jsonDump v
  | (k, v) :: rest => jsonDumpStr k ++ ": " ++ jsonDump v ++ ", " ++ jsonDumpObj rest

end

mutual

/-- Metadata values serialize into the JSON payload unchanged. -/
def mvalToJVal : MVal → JVal
  | .s v => .str v
  | .i v => .num ⟨v, 1⟩
  | .b v => .jb v
  | .none => .null
  | .list l => .arr (mvalToJValL l)
  | .dict d => .obj (mvalToJValD d)

def mvalToJValL : List MVal → List JVal
  | [] => []
  | x :: rest => mvalToJVal x :: mvalToJValL rest

def mvalToJValD : List (String × MVal) → List (String × JVal)
  | [] => []
  | (k, v) :: rest => (k, mvalToJVal v) :: mvalToJValD rest

end

/-! ## The user payload of `analyze_person` -/

/-- `user_payload` (lines 566–612 of `ai_analyst.py`). -/
def buildUserPayload (clean : PersonEntity) (profilesData : List MetaDict)
    (hasText hasTimestamps : Bool) (language : Language) : JVal :=
  let profiles := clean.profiles
  let confirmedNetworks := sortedDedup
    ((profiles.filter fun p => p.network_name ≠ "").map fun p => pyLower p.network_name)
  let confirmedUrls := (profiles.filter fun p => p.url ≠ "").map fun p => urlBeforeQuery p.url
  let stripped := profiles.map fun p => pyStrip p.username
  let nonEmpty := stripped.filter (fun u => u ≠ "")
  let emails := (nonEmpty.filter fun u => isSubstr "@" u).map pyLower
  let handles := nonEmpty.filter fun u => ¬ isSubstr "@" u
  let handleKeys := handles.map pyLower
  let reusedHandles := sortedDedup (handleKeys.filter fun k => 2 ≤ handleKeys.count k)
  let breachSummary : List JVal := profiles.filterMap fun p =>
    if pyLower p.network_name = "hibp" then
      match extractHibpBreaches p.metadata with
      | Option.some hibp => Option.some (JVal.obj
          [("email", .str p.username),
           ("count", mvalToJVal (dictGet hibp "count")),
           ("top", mvalToJVal (dictGet hibp "top"))])
      | Option.none => Option.none
    else Option.none
  .obj
    [("target_query", .str clean.target),
     ("evidence_count", .num ⟨(profilesData.length : Int), 1⟩),
     ("confirmed_networks", .arr (confirmedNetworks.map JVal.str)),
     ("confirmed_urls", .arr ((confirmedUrls.take 60).map JVal.str)),
     ("signals", .obj
       [("has_text_samples", .jb hasText),
        ("has_activity_timestamps", .jb hasTimestamps),
        ("emails", .arr (((sortedDedup emails).take 20).map JVal.str)),
        ("handles", .arr (((sortedDedup handles).take 40).map JVal.str)),
        ("reused_handles", .arr ((reusedHandles.take 20).map JVal.str)),
        ("breach_summary", .arr (breachSummary.take 10))]),
     ("profiles", .arr (profilesData.map fun d => JVal.obj (mvalToJValD d))),
     ("output_language", .str (languageValue language))]

/-! ## The retry loop of `analyze_person` -/

/-- Provider settings consumed by `analyze_person`. -/
structure AIConfig where
  aiApiKey : Option String := Option.none
  aiBaseUrl : String
  aiModel : String
  aiMaxRetries : Nat
  deriving Repr

/-- Outcome of one `client.chat.completions.create` call, as classified
by the `except` arms of the loop.  `RateLimitError` is a subclass of
`APIStatusError` and is therefore caught by the first arm (status 429);
`APITimeoutError`/`APIConnectionError` land in `transient`. -/
inductive ProviderOutcome where
  | content (s : String)
  | apiStatus (status : Nat) (msg : String)
  | transient (excName : String)
  | otherExc (excName : String)
  deriving Repr

/-- Result of the loop: a provider report or the fall-through to
`_heuristic_analysis` with the `provider_failed:<T>` reason. -/
inductive AIResult where
  | report (r : AnalysisReport)
  | heuristic (reason : String)
  deriving Repr, DecidableEq

deriving instance DecidableEq for Except

/-- The parse chain applied to a successful response body:
`_extract_json_object` (ValueError on failure), `json.loads`
(JSONDecodeError) and `_AIReportPayload.model_validate`
(ValidationError).  Errors carry the exception type name used in the
heuristic reason. -/
def aiAttemptParse (content : String) : Except String AIReportPayload :=
  match extractJsonObject content with
  | Option.none => .error "ValueError"
  | Option.some jtext =>
    match pyJsonParse jtext with
    | Option.none => .error "JSONDecodeError"
    | Option.some v =>
      match validatePayload v with
      | Option.none => .error "ValidationError"
      | Option.some p => .ok p

def templateFixMessage (language : Language) (missingSections : Bool) : String :=
  match language, missingSections with
  | Language.spanish, true => fixEsMissing
  | Language.spanish, false => fixEsTemplate
  | Language.english, true => fixEnMissing
  | Language.english, false => fixEnTemplate

def parseFixMessage : Language → String
  | Language.spanish => fixEsParse
  | Language.english => fixEnParse

/-- `request_messages[0]["content"] = <re-selected prompt>`. -/
def resetSystemPrompt (messages : List (String × String)) (prompt : String) :
    List (String × String) :=
  match messages with
  | [] => []
  | (role, _) :: rest => (role, prompt) :: rest

/-- `max(1, settings.ai_max_retries + 1)`: the number of loop
iterations. -/
def aiTotalAttempts (cfg : AIConfig) : Nat :=
  max 1 (cfg.aiMaxRetries + 1)

/-- One-to-one embedding of `for attempt in range(max(1, ai_max_retries + 1))`.

`remaining` is the number of loop iterations left (`total - attempt`);
the function also returns the trace of `(attempt, model)` pairs actually
sent to the provider, which makes the retry-budget accounting
observable.  Sleeps (back-off, jitter, `Retry-After`) do not affect the
data flow and are not modelled. -/
def aiLoopGo (env : Nat → ProviderOutcome) (cfg : AIConfig) (language : Language)
    (hasText hasTimestamps : Bool) (nProfiles : Nat) :
    Nat → Nat → String → List (String × String) → Option String →
    AIResult × List (Nat × String)
  | 0, _, _, _, lastError =>
    (.heuristic ("provider_failed:" ++ lastError.getD "unknown"), [])
  | remaining + 1, attempt, configuredModel, messages, _ =>
    let usedModel := configuredModel
    let call := (attempt, usedModel)
    match env attempt with
    | .content raw =>
      let content := pyStrip raw
      match aiAttemptParse content with
      | .ok parsed =>
        let missingSections := !(summaryHasSixSections parsed.summary language)
        if looksLikeTemplateResponse parsed || missingSections then
          if cfg.aiMaxRetries ≤ attempt then
            (.heuristic "provider_failed:ValueError", [call])
          else
            let messages' := messages ++
              [("assistant", content), ("user", templateFixMessage language missingSections)]
            let (r, t) := aiLoopGo env cfg language hasText hasTimestamps nProfiles
              remaining (attempt + 1) configuredModel messages' (Option.some "ValueError")
            (r, call :: t)
        else
          (.report
            { summary := sanitizeSummaryMarkdown parsed.summary
              highlights := parsed.highlights
              confidence := reportConfidence hasText hasTimestamps nProfiles parsed.confidence
              model := Option.some usedModel
              rawReason := Option.none }, [call])
      | .error excName =>
        if cfg.aiMaxRetries ≤ attempt then
          (.heuristic ("provider_failed:" ++ excName), [call])
        else
          let messages' := messages ++
            [("assistant", content), ("user", parseFixMessage language)]
          let (r, t) := aiLoopGo env cfg language hasText hasTimestamps nProfiles
            remaining (attempt + 1) configuredModel messages' (Option.some excName)
          (r, call :: t)
    | .apiStatus status msg =>
      if (fallbackModelFor cfg.aiBaseUrl).isSome
          ∧ configuredModel ≠ (fallbackModelFor cfg.aiBaseUrl).getD ""
          ∧ (status = 400 ∨ status = 404)
          ∧ looksLikeModelRejection msg then
        let fb := (fallbackModelFor cfg.aiBaseUrl).getD ""
        let messages' := resetSystemPrompt messages
          (selectSystemPrompt cfg.aiBaseUrl fb language)
        let (r, t) := aiLoopGo env cfg language hasText hasTimestamps nProfiles
          remaining (attempt + 1) fb messages' (Option.some "APIStatusError")
        (r, call :: t)
      else if status = 429 then
        if cfg.aiMaxRetries ≤ attempt then
          (.heuristic "provider_failed:APIStatusError", [call])
        else
          let (r, t) := aiLoopGo env cfg language hasText hasTimestamps nProfiles
            remaining (attempt + 1) configuredModel messages (Option.some "APIStatusError")
          (r, call :: t)
      else
        (.heuristic "provider_failed:APIStatusError", [call])
    | .transient excName =>
      if cfg.aiMaxRetries ≤ attempt then
        (.heuristic ("provider_failed:" ++ excName), [call])
      else
        let (r, t) := aiLoopGo env cfg language hasText hasTimestamps nProfiles
          remaining (attempt + 1) configuredModel messages (Option.some excName)
        (r, call :: t)
    | .otherExc excName =>
      (.heuristic ("provider_failed:" ++ excName), [call])

/-! ## The purge of non-existent profiles (`analyze_person`, lines 487–495)

`person.model_copy()` is a *shallow* Pydantic copy: the copied entity
shares the `profiles` list object with the caller's entity, so removals
below are visible to the caller after the call returns. -/

/-- Python `list.remove(p)`: removes the first element equal (`==`,
field-wise for Pydantic models) to `p`; `none` models the raised
`ValueError` when no element matches. -/
def removeFirst : List SocialProfile → SocialProfile → Option (List SocialProfile)
  | [], _ => Option.none
  | x :: xs, p =>
    if x = p then Option.some xs
    else (removeFirst xs p).map (fun r => x :: r)

/-- Sequential `for p in to_remove: profiles.remove(p)`. -/
def removeAll (l : List SocialProfile) (sub : List SocialProfile) :
    Option (List SocialProfile) :=
  sub.foldlM (fun acc p => removeFirst acc p) l

/-- The `while True` purge loop; the fuel only witnesses termination
(two passes always suffice, proved below). -/
def purgeLoop : Nat → List SocialProfile → Option (List SocialProfile)
  | 0, _ => Option.none
  | fuel + 1, l =>
    let toRemove := l.filter fun p => !p.existe
    if toRemove.isEmpty then Option.some l
    else
      match removeAll l toRemove with
      | Option.none => Option.none
      | Option.some l2 => purgeLoop fuel l2

/-- The full purge as executed on the shared `profiles` list. -/
def purgeProfiles (l : List SocialProfile) : Option (List SocialProfile) :=
  purgeLoop (l.length + 2) l

/-! ## `analyze_person` (data flow) -/

structure AnalyzeOutcome where
  report : AnalysisReport
  /-- The caller's `person.profiles` after the call (the purge mutates
  the shared list). -/
  callerProfiles : List SocialProfile
  /-- The `(attempt, model)` calls actually issued to the provider. -/
  trace : List (Nat × String)
  deriving Repr, DecidableEq

/-- The provider interaction of `analyze_person` once the purge and the
key check have passed: evidence building plus the retry loop, on the
purged copy. -/
def analyzePersonCore (env : Nat → ProviderOutcome) (cfg : AIConfig)
    (language : Language) (clean : PersonEntity) : AIResult × List (Nat × String) :=
  let profilesData := buildProfilesData clean.profiles
  let hasText := evidenceHasText profilesData
  let hasTimestamps := evidenceHasTimestamps profilesData
  let systemPrompt := selectSystemPrompt cfg.aiBaseUrl cfg.aiModel language
  let payload := buildUserPayload clean profilesData hasText hasTimestamps language
  let messages := [("system", systemPrompt), ("user", jsonDump payload)]
  aiLoopGo env cfg language hasText hasTimestamps
    profilesData.length (aiTotalAttempts cfg) 0 cfg.aiModel messages Option.none

/-- `analyze_person(person, language, settings)` over an abstract
provider (`env` maps the loop iteration index to that call's outcome). -/
def analyzePersonModel (env : Nat → ProviderOutcome) (cfg : AIConfig)
    (language : Language) (person : PersonEntity) : Option AnalyzeOutcome :=
  match purgeProfiles person.profiles with
  | Option.none => Option.none
  | Option.some purged =>
    let clean : PersonEntity := { person with profiles := purged }
    match missingKeyPolicy cfg.aiApiKey cfg.aiBaseUrl with
    | .heuristicFallback reason =>
      Option.some ⟨heuristicAnalysis clean language reason, purged, []⟩
    | .proceed _ =>
      match analyzePersonCore env cfg language clean with
      | (.report r, trace) => Option.some ⟨r, purged, trace⟩
      | (.heuristic reason, trace) =>
        Option.some ⟨heuristicAnalysis clean language reason, purged, trace⟩

/-! ## Concrete scanners

Each scanner is embedded as a function of the abstracted HTTP
response/DOM-extraction results (status code, final URL after redirects,
tags found by BeautifulSoup, parsed API payloads).  Raised exceptions —
including the `UnboundLocalError`/`NameError` slips some scanners hit on
certain responses — are modelled with `Except`; the orchestrator's
`safe_scan` turns them into fallback profiles. -/

/-- An HTTP response as far as the scanners consume it. -/
structure HttpResp where
  status : Nat
  finalUrl : String
  deriving Repr

/-- Python `str.strip(chars)`. -/
def pyStripChars (chars : String) (s : String) : String :=
  let mem : Char → Bool := fun c => chars.data.contains c
  ⟨((s.data.dropWhile mem).reverse.dropWhile mem).reverse⟩

/-- `email.split("@", 1)[0]`. -/
def emailLocalpart (e : String) : String :=
  ⟨e.data.takeWhile (fun c => c ≠ '@')⟩

/-- `GitHubScanner.scan(username)`: `api` is the result of
`fetch_github_deep` (`None` on any non-200 from the user endpoint). -/
def githubScan (username : String) (api : Option MetaDict) : SocialProfile :=
  let publicUrl := "https://github.com/" ++ username
  let exists_ := api.isSome
  let metadata := dictUnion [("source", .s "github_api")] (api.getD [])
  let bio := match api with
    | Option.some a => match dictGet a "bio" with
      | .s v => Option.some v
      | _ => Option.none
    | Option.none => Option.none
  let imageUrl := match api with
    | Option.some a => match dictGet a "avatar_url" with
      | .s v => Option.some v
      | _ => Option.none
    | Option.none => Option.none
  { url := publicUrl, username := username, network_name := "github",
    existe := exists_, metadata := metadata, bio := bio, imagen_url := imageUrl }

/-- `RedditScanner.scan(username)`: `api` is the result of
`fetch_reddit_deep` (`None` on any non-200 from `about.json`). -/
def redditScan (username : String) (api : Option MetaDict) : SocialProfile :=
  let publicUrl := "https://www.reddit.com/user/" ++ username ++ "/"
  let exists_ := api.isSome
  let metadata := dictUnion [("source", .s "reddit_about_json")] (api.getD [])
  let bio := match api with
    | Option.some a => match dictGet a "public_description" with
      | .s v => Option.some v
      | _ => Option.none
    | Option.none => Option.none
  let imageUrl := match api with
    | Option.some a => match dictGet a "icon_img" with
      | .s v => if v ≠ "" then Option.some v else Option.none
      | _ => Option.none
    | Option.none => Option.none
  { url := publicUrl, username := username, network_name := "reddit",
    existe := exists_, metadata := metadata, bio := bio, imagen_url := imageUrl }

/-- `KaggleScanner.scan(username)`. -/
def kaggleScan (username : String) (resp : HttpResp) : SocialProfile :=
  { url := resp.finalUrl, username := username, network_name := "kaggle",
    existe := resp.status = 200,
    metadata := [("status_code", .i resp.status), ("final_url", .s resp.finalUrl)] }

/-- `XScanner.scan(username)`. -/
def xScan (username : String) (resp : HttpResp) : SocialProfile :=
  { url := resp.finalUrl, username := username, network_name := "x",
    existe := resp.status = 200,
    metadata := [("status_code", .i resp.status), ("final_url", .s resp.finalUrl)] }

/-- `GitLabScanner.scan(username)`: `title` is the text of the page
`<title>` tag when present, `server` the `server` response header. -/
def gitlabScan (username : String) (resp : HttpResp) (title : Option String)
    (server : Option String) : SocialProfile :=
  let exists_ := resp.status = 200
  let name := if exists_ then
      title.map (fun t => pyStripChars " ·-" (pyReplace t "· GitLab" ""))
    else Option.none
  { url := resp.finalUrl, username := username, network_name := "gitlab",
    existe := exists_,
    metadata := [("status_code", .i resp.status), ("final_url", .s resp.finalUrl),
                 ("name", optMVal name), ("server", optMVal server)] }

/-- DOM extraction results consumed by `PinterestScanner.scan`. -/
structure PinterestExtract where
  profileName : Option String := Option.none
  description : Option String := Option.none
  avatarUrl : Option String := Option.none
  websiteText : Option String := Option.none
  deriving Repr

/-- `PinterestScanner.scan(username)`. -/
def pinterestScan (username : String) (resp : HttpResp) (ext : PinterestExtract) :
    SocialProfile :=
  let base : MetaDict := [("status_code", .i resp.status), ("final_url", .s resp.finalUrl)]
  if resp.status = 200 then
    match ext.profileName with
    | Option.some name =>
      let md := dictSet base "name" (.s name)
      let md := match ext.description with
        | Option.some d => dictSet md "description" (.s d)
        | Option.none => md
      let md := match ext.avatarUrl with
        | Option.some a => dictSet md "avatar_url" (.s a)
        | Option.none => md
      let md := match ext.websiteText with
        | Option.some w => dictSet md "other_websites" (.s w)
        | Option.none => md
      { url := resp.finalUrl, username := username, network_name := "pinterest",
        existe := true, metadata := md }
    | Option.none =>
      { url := resp.finalUrl, username := username, network_name := "pinterest",
        existe := false, metadata := base }
  else
    { url := resp.finalUrl, username := username, network_name := "pinterest",
      existe := false, metadata := base }

/-- `MediumScanner.scan(username)`: `ogTitle` is the `og:title` content,
`posts` the zipped `h2`/`h3` texts. -/
def mediumScan (username : String) (resp : HttpResp) (ogTitle : Option String)
    (description : Option String) (avatarUrl : Option String)
    (posts : List (String × String)) : SocialProfile :=
  let base : MetaDict := [("status_code", .i resp.status), ("final_url", .s resp.finalUrl)]
  if resp.status = 200 then
    match ogTitle with
    | Option.some name0 =>
      if name0 ≠ "Medium" then
        let name := pyStrip (pyReplace name0 "– Medium" "")
        let md := base
        let md := match description with
          | Option.some d => dictSet md "description" (.s d)
          | Option.none => md
        let md := match avatarUrl with
          | Option.some a => dictSet md "avatar_url" (.s a)
          | Option.none => md
        let md := if posts.isEmpty then md
          else dictSet md "recent_posts"
            (.list (posts.map fun tc => .dict
              [("title", .s (pyStrip tc.1)), ("content", .s (pyStrip tc.2))]))
        let md := dictSet md "name" (.s name)
        { url := resp.finalUrl, username := username, network_name := "medium",
          existe := true, metadata := md }
      else
        { url := resp.finalUrl, username := username, network_name := "medium",
          existe := false, metadata := dictSet base "name" MVal.none }
    | Option.none =>
      { url := resp.finalUrl, username := username, network_name := "medium",
        existe := false, metadata := dictSet base "name" MVal.none }
  else
    { url := resp.finalUrl, username := username, network_name := "medium",
      existe := false, metadata := base }

/-- `TelegramScanner.scan(username)`: on any non-200 response the
function body reads the never-assigned local `exists`, raising
`UnboundLocalError` (recovered by `safe_scan`). -/
def telegramScan (username : String) (resp : HttpResp) (ogTitleContent : String)
    (pageName : Option String) (avatarContent : Option (Option String)) :
    Except String SocialProfile :=
  let base : MetaDict := [("status_code", .i resp.status), ("final_url", .s resp.finalUrl)]
  if resp.status = 200 then
    if ¬ pyStartsWith ogTitleContent "Telegram: Contact @" then
      let md := match pageName with
        | Option.some n => if n ≠ "" then dictSet base "name" (.s n) else base
        | Option.none => base
      let md := match avatarContent with
        | Option.some content => dictSet md "avatar_url" (optMVal content)
        | Option.none => md
      .ok { url := resp.finalUrl, username := username, network_name := "telegram",
            existe := true, metadata := md }
    else
      .ok { url := resp.finalUrl, username := username, network_name := "telegram",
            existe := false, metadata := base }
  else
    .error "cannot access local variable 'exists' where it is not associated with a value"

/-- `TwitchScanner.scan(username)`: same `UnboundLocalError` slip on
non-200 responses. -/
def twitchScan (username : String) (resp : HttpResp) (ogTitleContent : Option String)
    (description : Option String) (avatarContent : Option (Option String)) :
    Except String SocialProfile :=
  let base : MetaDict := [("status_code", .i resp.status), ("final_url", .s resp.finalUrl)]
  if resp.status = 200 then
    match ogTitleContent with
    | Option.some t =>
      let name := pyStripChars " ·-" (pyReplace t "Twitch" "")
      let md := dictSet base "name" (.s name)
      let md := match description with
        | Option.some d => dictSet md "description" (.s d)
        | Option.none => md
      let md := match avatarContent with
        | Option.some content => dictSet md "avatar_url" (optMVal content)
        | Option.none => md
      .ok { url := resp.finalUrl, username := username, network_name := "twitch",
            existe := true, metadata := md }
    | Option.none =>
      .ok { url := resp.finalUrl, username := username, network_name := "twitch",
            existe := false, metadata := base }
  else
    .error "cannot access local variable 'exists' where it is not associated with a value"

/-- DOM/regex extraction results consumed by `AboutMeScanner.scan`. -/
structure AboutMeExtract where
  /-- Text of the `<title>` tag, when the tag exists. -/
  title : Option String := Option.none
  /-- `og:description` content, when present and non-empty. -/
  ogDescription : Option String := Option.none
  /-- `some d`: a `section.bio` element exists, with `d` the text of its
  first `<p>` (if any); `none`: no such section (which makes the scanner
  read an unbound local and raise `NameError`). -/
  bioSection : Option (Option String) := Option.some Option.none
  /-- `og:image` content, when present and non-empty. -/
  avatar : Option String := Option.none
  /-- First regex capture of `"address":"…"`. -/
  addressJson : Option String := Option.none
  /-- First regex capture of `"jobTitle":"…"`. -/
  jobTitle : Option String := Option.none
  /-- Quoted strings inside `"knowsAbout": […]`, when the regex matches. -/
  interests : Option (List String) := Option.none
  /-- Quoted strings inside `"sameAs": […]`, when the regex matches. -/
  sameAs : Option (List String) := Option.none
  deriving Repr

/-- Python `link.split("/")[-1]`. -/
def lastUrlSegment (link : String) : String :=
  match (link.splitOn "/").reverse with
  | last :: _ => last
  | [] => ""

/-- `AboutMeScanner.scan(username)`.  On a 200 response the scanner
raises `NameError` when the page has no `<title>` (unbound `name`) or no
`section.bio` (unbound `description`). -/
def aboutmeScan (username : String) (resp : HttpResp) (ext : AboutMeExtract) :
    Except String (List SocialProfile) :=
  let base : MetaDict := [("status_code", .i resp.status), ("final_url", .s resp.finalUrl)]
  if resp.status ≠ 200 then
    .ok [{ url := resp.finalUrl, username := username, network_name := "aboutme",
           existe := false, metadata := base }]
  else
    match ext.title with
    | Option.none =>
      .error "name 'name' is not defined"
    | Option.some title =>
      let who := pyStripChars " ·-" (pyReplace title "| about.me" "")
      let whoParts := who.splitOn " - "
      let name := pyStrip (whoParts.headD "")
      match ext.bioSection with
      | Option.none => .error "name 'description' is not defined"
      | Option.some sectionText =>
        let md := dictSet base "name" (.s name)
        let md := dictSet md "bio" (optMVal ext.ogDescription)
        let md := dictSet md "description" (optMVal sectionText)
        let md := match ext.avatar with
          | Option.some a => dictSet md "avatar_url" (.s a)
          | Option.none => md
        let location := match ext.addressJson with
          | Option.some a => Option.some a
          | Option.none =>
            match whoParts with
            | _ :: second :: _ => Option.some (pyStrip second)
            | _ => Option.none
        let md := dictSet md "location" (optMVal location)
        let md := dictSet md "jobTitle" (optMVal ext.jobTitle)
        let md := dictSet md "interests"
          (match ext.interests with
           | Option.some l => .list (l.map MVal.s)
           | Option.none => MVal.none)
        let socialLinks := ext.sameAs.getD []
        let md := dictSet md "social_links" (.list (socialLinks.map MVal.s))
        let md := dictSet md "name" (.s name)
        let mainProfile : SocialProfile :=
          { url := resp.finalUrl, username := username, network_name := "aboutme",
            existe := true, metadata := md }
        let extras := socialLinks.map fun link =>
          { url := link, username := lastUrlSegment link,
            network_name := "aboutme_social_link", existe := true,
            metadata := [("source", .s "aboutme"), ("from_username", .s username)]
            : SocialProfile }
        .ok (mainProfile :: extras)

/-! ### Email scanners -/

/-- `GravatarScanner.scan(email)`: `md5hex` abstracts
`hashlib.md5(email.encode()).hexdigest()`. -/
def gravatarScan (username : String) (md5hex : String) (resp : HttpResp) : SocialProfile :=
  let email := pyLower (pyStrip username)
  let exists_ := resp.status = 200
  { url := resp.finalUrl, username := email, network_name := "gravatar",
    existe := exists_,
    metadata := [("status_code", .i resp.status), ("final_url", .s resp.finalUrl),
                 ("email_md5", .s md5hex), ("normalized_email", .s email)],
    imagen_url := if exists_ then Option.some resp.finalUrl else Option.none }

/-- Fields harvested from the first `entry` of the Gravatar profile
JSON. -/
structure GravatarEntry where
  aboutMe : Option String := Option.none
  thumbnailUrl : Option String := Option.none
  displayName : Option String := Option.none
  preferredUsername : Option String := Option.none
  urls : Option (List MVal) := Option.none
  deriving Repr

/-- `GravatarProfileScanner.scan(email)`: `parsed` is the outcome of
`json.loads(response.text)` on a 200 response — `.error msg` a raised
parse exception (recorded as `parse_error`), `.ok none` a payload without
a usable first entry, `.ok (some e)` the harvested entry. -/
def gravatarProfileScan (username : String) (md5hex : String) (resp : HttpResp)
    (parsed : Except String (Option GravatarEntry)) : SocialProfile :=
  let email := pyLower (pyStrip username)
  let exists_ := resp.status = 200
  let base : MetaDict :=
    [("status_code", .i resp.status), ("final_url", .s resp.finalUrl),
     ("email_md5", .s md5hex), ("normalized_email", .s email)]
  if exists_ then
    match parsed with
    | .error msg =>
      { url := resp.finalUrl, username := email, network_name := "gravatar_profile",
        existe := true, metadata := dictSet base "parse_error" (.s msg) }
    | .ok Option.none =>
      { url := resp.finalUrl, username := email, network_name := "gravatar_profile",
        existe := true, metadata := base }
    | .ok (Option.some entry) =>
      let md := match entry.displayName with
        | Option.some d => dictSet base "display_name" (.s d)
        | Option.none => base
      let md := match entry.preferredUsername with
        | Option.some p => dictSet md "preferred_username" (.s p)
        | Option.none => md
      let md := match entry.urls with
        | Option.some u => dictSet md "urls" (.list u)
        | Option.none => md
      { url := resp.finalUrl, username := email, network_name := "gravatar_profile",
        existe := true, metadata := md,
        bio := entry.aboutMe, imagen_url := entry.thumbnailUrl }
  else
    { url := resp.finalUrl, username := email, network_name := "gravatar_profile",
      existe := false, metadata := base }

/-- `OpenPGPKeysScanner.scan(email)` — content heuristic over the
response body. -/
def openpgpkeysScan (username : String) (resp : HttpResp) (text : String) : SocialProfile :=
  let email := pyLower (pyStrip username)
  let notFoundMarkers := ["No results", "No keys found", "No matching keys"]
  let found := resp.status = 200 ∧ ¬ notFoundMarkers.any (fun m => isSubstr m text)
  { url := resp.finalUrl, username := email, network_name := "openpgp_keys",
    existe := found,
    metadata := [("status_code", .i resp.status), ("final_url", .s resp.finalUrl),
                 ("heuristic", .s "content")] }

/-- `UbuntuKeyserverScanner.scan(email)`. -/
def ubuntukeyserverScan (username : String) (resp : HttpResp) (text : String) : SocialProfile :=
  let email := pyLower (pyStrip username)
  let found := resp.status = 200 ∧ ¬ isSubstr "No results" text
  { url := resp.finalUrl, username := email, network_name := "ubuntu_keyserver",
    existe := found,
    metadata := [("status_code", .i resp.status), ("final_url", .s resp.finalUrl),
                 ("heuristic", .s "content")] }

/-- Modelled from the spec: scanner modules not present under `src/`
(`behance.py`, `devto.py`, `dribbble.py`, `gist_github.py`,
`keybase.py`, `npm.py`, `producthunt.py`, `soundcloud.py`).  Per §4.2
each computes a deterministic URL, sets `existe = (status == 200) ∧
body-heuristic` and records `status_code` and `final_url` in metadata
unconditionally. -/
def specScan (network : String) (username : String) (resp : HttpResp)
    (bodyHeuristic : Bool) : SocialProfile :=
  { url := resp.finalUrl, username := username, network_name := network,
    existe := resp.status = 200 && bodyHeuristic,
    metadata := [("status_code", .i resp.status), ("final_url", .s resp.finalUrl)] }

/-! ## Orchestrator (`src/core/services/identity_pipeline.py`) -/

/-- Result of awaiting one scanner's `scan`: either the returned
profile(s) (single results are collected into one-element lists exactly
as `safe_scan` does) or a raised exception's message. -/
inductive ScanOutcome where
  | ok (profiles : List SocialProfile)
  | exc (msg : String)

/-- One registered scanner: the class name (from which `safe_scan`
derives the network label) and its scan behaviour. -/
structure ScannerDef where
  className : String
  scan : String → ScanOutcome

/-- `safe_scan(scanner, value, derived_from=...)`. -/
def safeScan (s : ScannerDef) (value : String) (derivedFrom : Option String) :
    List SocialProfile :=
  let name := s.className
  let network := pyLower (pyRemoveSuffix name "Scanner")
  match s.scan value with
  | .ok collected =>
    collected.map fun p =>
      let p := match derivedFrom with
        | Option.some d =>
          if d ≠ "" then
            { p with metadata := dictUnion p.metadata [("derived_from", .s d)] }
          else p
        | Option.none => p
      if isSubstr "example.invalid/x/" p.url then
        { p with url := pyReplace p.url "example.invalid/x/" "x.com/" }
      else p
  | .exc msg =>
    let fallbackUrl := "https://" ++ network ++ ".com/" ++ value
    let fallbackUrl := if network = "x" then "https://x.com/" ++ value else fallbackUrl
    let metadata : MetaDict := [("error", .s msg), ("scanner", .s name)]
    let metadata := match derivedFrom with
      | Option.some d => if d ≠ "" then dictSet metadata "derived_from" (.s d) else metadata
      | Option.none => metadata
    [{ url := fallbackUrl, username := value, network_name := network,
       existe := false, metadata := metadata }]

/-- The string values a discovery key contributes
(`isinstance(val, str)` / `isinstance(val, list)` cases). -/
def mvalStrings : MVal → List String
  | .s v => [v]
  | .list l => l.filterMap fun v => match v with
      | .s s => Option.some s
      | _ => Option.none
  | _ => []

/-- Website entries count as usernames only when they are not URLs. -/
def mvalNonHttpStrings : MVal → List String
  | .s v => if ¬ pyStartsWith v "http" then [v] else []
  | .list l => l.filterMap fun v => match v with
      | .s s => if ¬ pyStartsWith s "http" then Option.some s else Option.none
      | _ => Option.none
  | _ => []

/-- `extract_extras(perfiles)`: `(cleaned usernames, cleaned emails)`,
each a sorted set. -/
def extractExtras (perfiles : List SocialProfile) : List String × List String :=
  let extraEmails := perfiles.flatMap fun p =>
    ["other_emails", "emails", "email"].flatMap fun k => mvalStrings (dictGet p.metadata k)
  let extraUsernames := perfiles.flatMap fun p =>
    (["other_users", "usernames"].flatMap fun k => mvalStrings (dictGet p.metadata k))
    ++ (["other_websites", "websites", "website"].flatMap fun k =>
          mvalNonHttpStrings (dictGet p.metadata k))
  let cleanedEmails := sortedDedup
    (((extraEmails.filter fun e => e ≠ "" ∧ isSubstr "@" e).map fun e => pyLower (pyStrip e)))
  let cleanedUsernames := sortedDedup
    ((extraUsernames.map pyStrip).filter fun u => u ≠ "")
  (cleanedUsernames, cleanedEmails)

/-- The dedupe key. -/
def profileKey (p : SocialProfile) : String × String × String :=
  (p.network_name, p.username, p.url)

/-- `dedupe_profiles(profiles)` — seen-set pass keeping first
occurrences. -/
def dedupeAux (seen : List (String × String × String)) :
    List SocialProfile → List SocialProfile
  | [] => []
  | p :: rest =>
    if seen.contains (profileKey p) then dedupeAux seen rest
    else p :: dedupeAux (profileKey p :: seen) rest

def dedupeProfiles (profiles : List SocialProfile) : List SocialProfile :=
  dedupeAux [] profiles

def strictSherlockDenylist : List String := ["avizo", "fanpop", "hubski"]

def strictSuspiciousUrlParts : List String :=
  ["login", "sign_in", "consent", "privacy", "cookie", "redirect", "return_url=",
   "callbackurl=", "search?", "search/?", "vendor_not_found", "nastaveni-souhlasu"]

/-- `_strict_keep_profile(profile=p, username=u)`. -/
def strictKeepProfile (profile : SocialProfile) (username : String) : Bool :=
  if ¬ profile.existe then false
  else
    let metadata := profile.metadata
    if dictGet metadata "source" ≠ MVal.s "sherlock" then true
    else if strictSherlockDenylist.contains profile.network_name then false
    else
      let finalUrl := pyLower (mvalPyStr (mvalOr (dictGet metadata "final_url") (.s profile.url)))
      if strictSuspiciousUrlParts.any (fun part => isSubstr part finalUrl) then false
      else
        let usernameL := pyLower username
        if isSubstr usernameL finalUrl then true
        else if (match dictGet metadata "title" with
                 | .s t => isSubstr usernameL (pyLower t)
                 | _ => false) then true
        else if (match dictGet metadata "meta_description" with
                 | .s d => isSubstr usernameL (pyLower d)
                 | _ => false) then true
        else false

/-! ## Generic HTML enricher (`src/adapters/profile_enricher.py`) -/

/-- `enrich_one(p)` from `enrich_profiles_from_html`: `fetch` returns
the `extract_html_metadata` result for a URL, or `none` for any skipped
or failed fetch (bad status, transport error, empty extraction). -/
def enrichOne (fetch : String → Option MetaDict) (p : SocialProfile) : SocialProfile :=
  if ¬ p.existe then p
  else if pyTruthy p.bio || pyTruthy p.imagen_url then p
  else if ¬ (pyStartsWith p.url "http://" || pyStartsWith p.url "https://") then p
  else
    match fetch p.url with
    | Option.none => p
    | Option.some meta =>
      let bio := if ¬ pyTruthy p.bio then
          match dictGet meta "meta_description" with
          | .s md => if pyStrip md ≠ "" then Option.some (pyStrip md) else p.bio
          | _ => p.bio
        else p.bio
      let imagenUrl := if ¬ pyTruthy p.imagen_url then
          match dictGet meta "og_image" with
          | .s og => if pyStrip og ≠ "" then Option.some (pyStrip og) else p.imagen_url
          | _ => p.imagen_url
        else p.imagen_url
      { p with metadata := dictUnion p.metadata meta, bio := bio, imagen_url := imagenUrl }

/-- `enrich_profiles_from_html`: each profile is enriched independently
(no two tasks share a profile), so the concurrent pass is the map. -/
def enrichProfiles (fetch : String → Option MetaDict) (profiles : List SocialProfile) :
    List SocialProfile :=
  profiles.map (enrichOne fetch)

/-! ## The `hunt` worklist and post-phase -/

/-- Environment of one `hunt` run: scanner registries and the
collaborating engines.  `runUsernameSites` / `runEmailSites` /
`runSherlock` are modelled from the spec (their modules
`adapters/site_lists/runner.py` and `adapters/sherlock_runner.py` are
not present under `src/`): they map the final identifier lists to the
profiles the engine emits; the `…Available` flags stand for a configured
and existing catalogue path (a missing one produces the warning). -/
structure HuntEnv where
  usernameScanners : List ScannerDef
  emailScanners : List ScannerDef
  usernameSitesAvailable : Bool := false
  runUsernameSites : List String → List SocialProfile := fun _ => []
  emailSitesAvailable : Bool := false
  runEmailSites : List String → List SocialProfile := fun _ => []
  runSherlock : List String → List SocialProfile := fun _ => []
  enrichFetch : String → Option MetaDict := fun _ => Option.none

/-- `HuntRequest` (the fields the pipeline logic reads; concurrency
caps, category filters and the manifest feed the collaborators inside
the env functions). -/
structure HuntRequest where
  usernames : List String := []
  emails : List String := []
  scanLocalpart : Bool := true
  siteListsEnabled : Bool := false
  useSherlock : Bool := false
  strict : Bool := false

structure PipelineResult where
  person : PersonEntity
  usernames : List String
  emails : List String
  warnings : List String := []
  deriving Repr, DecidableEq

/-- The worklist loop's mutable state: collected profiles and the four
identifier sets (modelled as sorted unique lists). -/
structure WorklistState where
  profiles : List SocialProfile := []
  allUsernames : List String := []
  allEmails : List String := []
  scannedUsernames : List String := []
  scannedEmails : List String := []

/-- The body of one `while True` iteration of the discovery loop (the
fan-outs, the localpart derivation, and the identifier re-extraction). -/
def worklistStep (env : HuntEnv) (scanLocalpart : Bool) (st : WorklistState) :
    WorklistState :=
  let newUsernames := strSetDiff st.allUsernames st.scannedUsernames
  let newEmails := strSetDiff st.allEmails st.scannedEmails
  let st :=
    if ¬ newUsernames.isEmpty then
      { st with
        profiles := st.profiles ++ newUsernames.flatMap fun u =>
          env.usernameScanners.flatMap fun s => safeScan s u Option.none
        scannedUsernames := strSetUnion st.scannedUsernames newUsernames }
    else st
  let st :=
    if ¬ newEmails.isEmpty then
      let st := { st with
        profiles := st.profiles ++ newEmails.flatMap fun e =>
          env.emailScanners.flatMap fun s => safeScan s e Option.none
        scannedEmails := strSetUnion st.scannedEmails newEmails }
      if scanLocalpart then
        let localparts := newEmails.map emailLocalpart
        { st with
          profiles := st.profiles ++ localparts.flatMap fun lp =>
            env.usernameScanners.flatMap fun s =>
              safeScan s lp (Option.some "email_localpart")
          allUsernames := strSetUnion st.allUsernames localparts }
      else st
    else st
  let (extraUsernames, extraEmails) := extractExtras st.profiles
  { st with
    allUsernames := strSetUnion st.allUsernames extraUsernames
    allEmails := strSetUnion st.allEmails extraEmails }

/-- One-to-one embedding of the `while True` discovery loop of `hunt`.
The fuel only witnesses termination; `none` means the fuel ran out
before the fixed point was reached. -/
def worklistLoop (env : HuntEnv) (scanLocalpart : Bool) :
    Nat → WorklistState → Option WorklistState
  | 0, _ => Option.none
  | fuel + 1, st =>
    if (strSetDiff st.allUsernames st.scannedUsernames).isEmpty
        ∧ (strSetDiff st.allEmails st.scannedEmails).isEmpty then Option.some st
    else worklistLoop env scanLocalpart fuel (worklistStep env scanLocalpart st)

/-- Everything `hunt` does after the worklist closes: site lists,
Sherlock, dedupe, strict filter, enrichment, re-extraction, target
assembly.  (The guarded appends spell out the source's nested
`if request.site_lists.enabled: if usernames: …` sequencing.) -/
def postPhase (env : HuntEnv) (req : HuntRequest) (wl : WorklistState) : PipelineResult :=
  let usernames := wl.allUsernames
  let emails := wl.allEmails
  let profiles := wl.profiles
    ++ (if req.siteListsEnabled ∧ ¬ usernames.isEmpty ∧ env.usernameSitesAvailable then
          env.runUsernameSites usernames
        else [])
    ++ (if req.siteListsEnabled ∧ ¬ emails.isEmpty ∧ env.emailSitesAvailable then
          env.runEmailSites emails
        else [])
    ++ (if req.useSherlock ∧ ¬ usernames.isEmpty then env.runSherlock usernames else [])
  let warnings :=
    (if req.siteListsEnabled ∧ ¬ usernames.isEmpty ∧ ¬ env.usernameSitesAvailable then
       ["Site-lists for usernames not configured (missing path)."]
     else [])
    ++ (if req.siteListsEnabled ∧ ¬ emails.isEmpty ∧ ¬ env.emailSitesAvailable then
          ["Site-lists for emails not configured (missing path)."]
        else [])
  let profiles := dedupeProfiles profiles
  let profiles :=
    if req.strict ∧ ¬ usernames.isEmpty then
      profiles.filter fun p => usernames.any fun u => strictKeepProfile p u
    else profiles
  let profiles := enrichProfiles env.enrichFetch profiles
  let extras := extractExtras profiles
  let usernames := strSetUnion usernames extras.1
  let emails := strSetUnion emails extras.2
  let targetParts :=
    (if ¬ usernames.isEmpty then [String.intercalate "/" usernames] else [])
    ++ (if ¬ emails.isEmpty then [String.intercalate "/" emails] else [])
  let joined := String.intercalate "/" targetParts
  let targetLabel := if joined = "" then "target" else joined
  { person := { target := targetLabel, profiles := profiles }
    usernames := usernames
    emails := emails
    warnings := warnings }

/-- `hunt(settings, request)`: initial identifier normalisation, the
worklist, then the post-phase. -/
def huntModel (env : HuntEnv) (req : HuntRequest) (fuel : Nat) : Option PipelineResult :=
  let usernames0 := sortedDedup ((req.usernames.map pyStrip).filter fun u => u ≠ "")
  let emails0 := sortedDedup
    ((req.emails.filter fun e => pyStrip e ≠ "").map fun e => pyLower (pyStrip e))
  let st0 : WorklistState :=
    { profiles := [], allUsernames := usernames0, allEmails := emails0,
      scannedUsernames := [], scannedEmails := [] }
  (worklistLoop env req.scanLocalpart fuel st0).map (postPhase env req)

/-! ## Helper lemmas: dictionaries and sorted sets -/

lemma dictHas_dictSet (d : MetaDict) (k k' : String) (v : MVal) :
    dictHas (dictSet d k' v) k = (dictHas d k || (k' = k : Bool)) := by
  induction d with
  | nil => simp [dictSet, dictHas]
  | cons kv rest ih =>
    obtain ⟨k0, v0⟩ := kv
    by_cases h : k0 = k'
    · subst h
      simp [dictSet, dictHas]
      by_cases hk : k0 = k <;> simp [hk]
    · simp only [dictSet, if_neg h, dictHas, ih]
      by_cases hk : k0 = k <;> simp [hk]

lemma dictHas_dictUnion_left (a b : MetaDict) (k : String) (h : dictHas a k = true) :
    dictHas (dictUnion a b) k = true := by
  unfold dictUnion
  induction b generalizing a with
  | nil => simpa using h
  | cons kv rest ih =>
    simp only [List.foldl_cons]
    exact ih _ (by rw [dictHas_dictSet, h, Bool.true_or])

lemma mem_insertSortedUnique (x y : String) (l : List String) :
    y ∈ insertSortedUnique x l ↔ y = x ∨ y ∈ l := by
  induction l with
  | nil => simp [insertSortedUnique]
  | cons z rest ih =>
    unfold insertSortedUnique
    by_cases hxz : x = z
    · subst hxz
      simp
      try tauto
    · by_cases hlt : x < z
      · simp [hxz, hlt]
        try tauto
      · simp [hxz, hlt, ih]
        try tauto

lemma mem_sortedDedup (y : String) (l : List String) :
    y ∈ sortedDedup l ↔ y ∈ l := by
  induction l with
  | nil => simp [sortedDedup]
  | cons x rest ih =>
    simp only [sortedDedup, List.foldr_cons, List.mem_cons]
    rw [show List.foldr insertSortedUnique [] rest = sortedDedup rest from rfl] at *
    rw [mem_insertSortedUnique, ih]

lemma mem_strSetUnion (y : String) (a b : List String) :
    y ∈ strSetUnion a b ↔ y ∈ a ∨ y ∈ b := by
  unfold strSetUnion
  rw [mem_sortedDedup, List.mem_append]

lemma strSetUnion_left_mem (y : String) (a b : List String) (h : y ∈ a) :
    y ∈ strSetUnion a b := (mem_strSetUnion y a b).mpr (Or.inl h)

lemma strSetUnion_ne_nil_of_left {a : List String} (b : List String) (h : a ≠ []) :
    strSetUnion a b ≠ [] := by
  intro hc
  obtain ⟨x, hx⟩ := List.exists_mem_of_ne_nil a h
  have := strSetUnion_left_mem x a b hx
  rw [hc] at this
  simp at this

/-! ## Helper lemmas: deduplication (first occurrence wins) -/

/-- Specification-side statement of order-stable deduplication: keep the
head, drop every later profile with the same key, recurse. -/
def keepFirsts : List SocialProfile → List SocialProfile
  | [] => []
  | p :: rest =>
    p :: keepFirsts (rest.filter fun q => profileKey q ≠ profileKey p)
termination_by l => l.length
decreasing_by
  simp only [List.length_cons]
  exact Nat.lt_succ_of_le (List.length_filter_le _ _)

lemma mem_keepFirsts {q : SocialProfile} :
    ∀ {l : List SocialProfile}, q ∈ keepFirsts l → q ∈ l := by
  intro l
  induction l using keepFirsts.induct with
  | case1 => simp [keepFirsts]
  | case2 p rest ih =>
    simp only [keepFirsts, List.mem_cons]
    rintro (rfl | hq)
    · exact Or.inl rfl
    · exact Or.inr (List.mem_of_mem_filter (ih hq))

lemma dedupeAux_eq_keepFirsts (seen : List (String × String × String))
    (l : List SocialProfile) :
    dedupeAux seen l
      = keepFirsts (l.filter fun p => ¬ seen.contains (profileKey p)) := by
  induction l generalizing seen with
  | nil => simp [dedupeAux, keepFirsts]
  | cons p rest ih =>
    by_cases h : seen.contains (profileKey p)
    · have hmem : profileKey p ∈ seen := by simpa using h
      simp only [dedupeAux, if_pos h, List.filter_cons]
      simp [hmem, ih]
    · have hmem : profileKey p ∉ seen := by simpa using h
      simp only [dedupeAux, if_neg h, List.filter_cons]
      simp [hmem]
      rw [ih (profileKey p :: seen)]
      conv_rhs => rw [keepFirsts]
      congr 1
      rw [List.filter_filter]
      congr 1
      apply List.filter_congr
      intro a _
      by_cases h1 : profileKey a = profileKey p
      · simp [List.contains_cons, h1]
      · by_cases h2 : profileKey a ∈ seen
        · simp [List.contains_cons, h1, h2]
        · simp [List.contains_cons, h1, h2]

lemma dedupeProfiles_eq_keepFirsts (l : List SocialProfile) :
    dedupeProfiles l = keepFirsts l := by
  unfold dedupeProfiles
  rw [dedupeAux_eq_keepFirsts]
  congr 1
  simp

lemma keepFirsts_pairwise (l : List SocialProfile) :
    (keepFirsts l).Pairwise (fun p q => profileKey p ≠ profileKey q) := by
  induction l using keepFirsts.induct with
  | case1 => simp [keepFirsts]
  | case2 p rest ih =>
    simp only [keepFirsts]
    refine List.Pairwise.cons ?_ ih
    intro q hq
    have hf := mem_keepFirsts hq
    have := List.of_mem_filter hf
    have hne : profileKey q ≠ profileKey p := by simpa using this
    exact fun hc => hne hc.symm

lemma dedupeProfiles_pairwise (l : List SocialProfile) :
    (dedupeProfiles l).Pairwise (fun p q => profileKey p ≠ profileKey q) := by
  rw [dedupeProfiles_eq_keepFirsts]
  exact keepFirsts_pairwise l

/-! ## Helper lemmas: the purge loop -/

lemma removeAll_cons_of_ne (a : SocialProfile) (t sub : List SocialProfile)
    (h : ∀ p ∈ sub, p ≠ a) :
    removeAll (a :: t) sub = (removeAll t sub).map (fun r => a :: r) := by
  induction sub generalizing t with
  | nil => simp [removeAll]
  | cons s ss ih =>
    have hsa : s ≠ a := h s (by simp)
    have hss : ∀ p ∈ ss, p ≠ a := fun p hp => h p (by simp [hp])
    simp only [removeAll, List.foldlM_cons]
    have hrf : removeFirst (a :: t) s = (removeFirst t s).map (fun r => a :: r) := by
      simp [removeFirst, (Ne.symm hsa : a ≠ s)]
    rw [hrf]
    cases hrt : removeFirst t s with
    | none => simp
    | some t2 =>
      simpa [removeAll] using ih t2 hss

lemma removeAll_filter_not {P : SocialProfile → Bool} :
    ∀ l : List SocialProfile,
      removeAll l (l.filter fun p => !P p) = Option.some (l.filter P) := by
  intro l
  induction l with
  | nil => simp [removeAll]
  | cons a t ih =>
    by_cases hP : P a
    · have hfilter : (a :: t).filter (fun p => !P p) = t.filter (fun p => !P p) := by
        simp [List.filter_cons, hP]
      have hne : ∀ p ∈ t.filter (fun p => !P p), p ≠ a := by
        intro p hp hc
        subst hc
        have := List.of_mem_filter hp
        simp [hP] at this
      rw [hfilter, removeAll_cons_of_ne a t _ hne, ih]
      simp [List.filter_cons, hP]
    · have hfilter : (a :: t).filter (fun p => !P p) = a :: t.filter (fun p => !P p) := by
        simp [List.filter_cons, hP]
      rw [hfilter]
      simp only [removeAll, List.foldlM_cons]
      have hra : removeFirst (a :: t) a = Option.some t := by simp [removeFirst]
      rw [hra]
      have hfold : List.foldlM (fun acc p => removeFirst acc p) t
          (t.filter fun p => !P p) = Option.some (t.filter P) := ih
      simp [hfold, List.filter_cons, hP]

lemma filter_eq_self_of_all {P : SocialProfile → Bool} {l : List SocialProfile}
    (h : (l.filter fun p => !P p) = []) : l.filter P = l := by
  rw [List.filter_eq_self]
  intro a ha
  by_contra hc
  have : a ∈ l.filter (fun p => !P p) := List.mem_filter.mpr ⟨ha, by simpa using hc⟩
  rw [h] at this
  simp at this

lemma purgeLoop_eq (fuel : Nat) (l : List SocialProfile) :
    purgeLoop (fuel + 2) l = Option.some (l.filter (·.existe)) := by
  by_cases h : (l.filter fun p => !p.existe).isEmpty
  · have hempty : (l.filter fun p => !p.existe) = [] := by simpa using h
    simp only [purgeLoop, h, if_pos]
    rw [filter_eq_self_of_all hempty]
  · simp only [purgeLoop, h, if_neg, Bool.not_eq_true]
    rw [show (l.filter fun p => !p.existe) = (l.filter fun p => !(·.existe) p) from rfl]
    rw [removeAll_filter_not l]
    have h2 : ((l.filter (·.existe)).filter fun p => !p.existe) = [] := by
      rw [List.filter_eq_nil_iff]
      intro a ha
      have := List.of_mem_filter ha
      simp [this]
    simp only [purgeLoop]
    rw [show ((l.filter (·.existe)).filter fun p => !p.existe).isEmpty = true by
      simp [h2]]
    simp [filter_eq_self_of_all h2]

lemma purgeProfiles_eq (l : List SocialProfile) :
    purgeProfiles l = Option.some (l.filter (·.existe)) := by
  unfold purgeProfiles
  exact purgeLoop_eq l.length l

/-! ## Helper lemmas: enrichment, strict filter, safe_scan -/

lemma enrichOne_key (f : String → Option MetaDict) (p : SocialProfile) :
    profileKey (enrichOne f p) = profileKey p := by
  unfold enrichOne
  repeat' split
  all_goals rfl

lemma enrichOne_existe (f : String → Option MetaDict) (p : SocialProfile) :
    (enrichOne f p).existe = p.existe := by
  unfold enrichOne
  repeat' split
  all_goals rfl

lemma enrichOne_metadata_has (f : String → Option MetaDict) (p : SocialProfile)
    (k : String) (h : dictHas p.metadata k = true) :
    dictHas (enrichOne f p).metadata k = true := by
  unfold enrichOne
  repeat' split
  all_goals first
    | exact h
    | exact dictHas_dictUnion_left _ _ _ h

lemma strictKeepProfile_existe {p : SocialProfile} {u : String}
    (h : strictKeepProfile p u = true) : p.existe = true := by
  unfold strictKeepProfile at h
  by_cases he : p.existe
  · exact he
  · simp [he] at h

/-- Error-evidence invariant that actually holds of every profile the
pipeline emits: a non-existent profile carries `status_code`, `error` or
`source` in its metadata. -/
def profileErrEvidence (p : SocialProfile) : Prop :=
  p.existe = false →
    dictHas p.metadata "status_code" = true ∨ dictHas p.metadata "error" = true
      ∨ dictHas p.metadata "source" = true

/-- The per-scanner guarantee: every profile a scan returns satisfies
the invariant (raised exceptions are handled by `safe_scan`). -/
def scannerErrEvidence (s : ScannerDef) : Prop :=
  ∀ v, match s.scan v with
    | .ok ps => ∀ p ∈ ps, profileErrEvidence p
    | .exc _ => True

lemma profileErrEvidence_of_metadata_superset {p q : SocialProfile}
    (hpe : profileErrEvidence p) (he : q.existe = p.existe)
    (hm : ∀ k, dictHas p.metadata k = true → dictHas q.metadata k = true) :
    profileErrEvidence q := by
  intro hq
  rcases hpe (he ▸ hq) with h | h | h
  · exact Or.inl (hm _ h)
  · exact Or.inr (Or.inl (hm _ h))
  · exact Or.inr (Or.inr (hm _ h))

lemma safeScan_errEvidence {s : ScannerDef} (hs : scannerErrEvidence s)
    (v : String) (d : Option String) :
    ∀ p ∈ safeScan s v d, profileErrEvidence p := by
  intro p hp
  unfold safeScan at hp
  cases hscan : s.scan v with
  | ok ps =>
    rw [hscan] at hp
    simp only [List.mem_map] at hp
    obtain ⟨q, hq, rfl⟩ := hp
    have hqe : profileErrEvidence q := by
      have := hs v
      rw [hscan] at this
      exact this q hq
    have step1 : profileErrEvidence
        (match d with
         | Option.some dv =>
           if dv ≠ "" then
             { q with metadata := dictUnion q.metadata [("derived_from", .s dv)] }
           else q
         | Option.none => q) := by
      cases d with
      | none => exact hqe
      | some dv =>
        show profileErrEvidence (if dv ≠ "" then _ else q)
        by_cases hdv : dv ≠ ""
        · rw [if_pos hdv]
          exact profileErrEvidence_of_metadata_superset hqe rfl
            (fun k hk => dictHas_dictUnion_left _ _ _ hk)
        · rw [if_neg hdv]
          exact hqe
      
    split
    · exact profileErrEvidence_of_metadata_superset step1 rfl (fun k hk => hk)
    · exact step1
  | exc msg =>
    rw [hscan] at hp
    simp only [List.mem_singleton] at hp
    subst hp
    intro _
    cases d with
    | none => simp [dictHas]
    | some dv =>
      by_cases hdv : dv ≠ "" <;> simp [hdv, dictSet, dictHas]

/-! ## Helper lemmas: the worklist loop -/

lemma worklistStep_profiles_eq (env : HuntEnv) (sl : Bool) (st : WorklistState) :
    (worklistStep env sl st).profiles
      = st.profiles
        ++ ((strSetDiff st.allUsernames st.scannedUsernames).flatMap fun u =>
              env.usernameScanners.flatMap fun s => safeScan s u Option.none)
        ++ ((strSetDiff st.allEmails st.scannedEmails).flatMap fun e =>
              env.emailScanners.flatMap fun s => safeScan s e Option.none)
        ++ (if sl then
              ((strSetDiff st.allEmails st.scannedEmails).map emailLocalpart).flatMap fun lp =>
                env.usernameScanners.flatMap fun s =>
                  safeScan s lp (Option.some "email_localpart")
            else []) := by
  unfold worklistStep
  by_cases hU : (strSetDiff st.allUsernames st.scannedUsernames).isEmpty
  · have hUnil : strSetDiff st.allUsernames st.scannedUsernames = [] := by
      simpa using hU
    by_cases hE : (strSetDiff st.allEmails st.scannedEmails).isEmpty
    · have hEnil : strSetDiff st.allEmails st.scannedEmails = [] := by
        simpa using hE
      cases sl <;> simp [hU, hE, hUnil, hEnil]
    · cases sl <;> simp [hU, hE, hUnil]
  · by_cases hE : (strSetDiff st.allEmails st.scannedEmails).isEmpty
    · have hEnil : strSetDiff st.allEmails st.scannedEmails = [] := by
        simpa using hE
      cases sl <;> simp [hU, hE, hEnil]
    · cases sl <;> simp [hU, hE, List.append_assoc]

lemma worklistStep_profiles_mem (env : HuntEnv) (sl : Bool) (st : WorklistState)
    {p : SocialProfile} (hp : p ∈ (worklistStep env sl st).profiles) :
    p ∈ st.profiles
      ∨ (∃ s ∈ env.usernameScanners, ∃ v d, p ∈ safeScan s v d)
      ∨ (∃ s ∈ env.emailScanners, ∃ v d, p ∈ safeScan s v d) := by
  rw [worklistStep_profiles_eq] at hp
  simp only [List.mem_append] at hp
  rcases hp with ((hp | hp) | hp) | hp
  · exact Or.inl hp
  · simp only [List.mem_flatMap] at hp
    obtain ⟨v, _, s, hs, hmem⟩ := hp
    exact Or.inr (Or.inl ⟨s, hs, v, _, hmem⟩)
  · simp only [List.mem_flatMap] at hp
    obtain ⟨v, _, s, hs, hmem⟩ := hp
    exact Or.inr (Or.inr ⟨s, hs, v, _, hmem⟩)
  · split at hp
    · simp only [List.mem_flatMap] at hp
      obtain ⟨v, _, s, hs, hmem⟩ := hp
      exact Or.inr (Or.inl ⟨s, hs, v, _, hmem⟩)
    · simp at hp

lemma worklistStep_allUsernames_mono (env : HuntEnv) (sl : Bool) (st : WorklistState)
    {u : String} (hu : u ∈ st.allUsernames) :
    u ∈ (worklistStep env sl st).allUsernames := by
  unfold worklistStep
  by_cases hU : (strSetDiff st.allUsernames st.scannedUsernames).isEmpty <;>
    by_cases hE : (strSetDiff st.allEmails st.scannedEmails).isEmpty <;>
    cases sl <;>
    simp only [hU, hE, Bool.not_true, Bool.not_false, not_false_eq_true, not_true_eq_false,
      if_true, if_false, ite_true, ite_false, Bool.false_eq_true, Bool.true_eq_false] <;>
    first
    | exact strSetUnion_left_mem _ _ _ hu
    | exact strSetUnion_left_mem _ _ _ (strSetUnion_left_mem _ _ _ hu)

lemma worklistLoop_profiles_inv (env : HuntEnv) (sl : Bool)
    (hu : ∀ s ∈ env.usernameScanners, scannerErrEvidence s)
    (he : ∀ s ∈ env.emailScanners, scannerErrEvidence s) :
    ∀ (fuel : Nat) (st out : WorklistState),
      worklistLoop env sl fuel st = Option.some out →
      (∀ p ∈ st.profiles, profileErrEvidence p) →
      ∀ p ∈ out.profiles, profileErrEvidence p := by
  intro fuel
  induction fuel with
  | zero => intro st out h; simp [worklistLoop] at h
  | succ n ih =>
    intro st out h hst
    unfold worklistLoop at h
    split at h
    · cases h
      exact hst
    · refine ih _ _ h ?_
      intro p hp
      rcases worklistStep_profiles_mem env sl st hp with h1 | ⟨s, hs, v, d, hmem⟩ | ⟨s, hs, v, d, hmem⟩
      · exact hst p h1
      · exact safeScan_errEvidence (hu s hs) v d p hmem
      · exact safeScan_errEvidence (he s hs) v d p hmem

lemma worklistLoop_allUsernames_mono (env : HuntEnv) (sl : Bool) :
    ∀ (fuel : Nat) (st out : WorklistState),
      worklistLoop env sl fuel st = Option.some out →
      ∀ u ∈ st.allUsernames, u ∈ out.allUsernames := by
  intro fuel
  induction fuel with
  | zero => intro st out h; simp [worklistLoop] at h
  | succ n ih =>
    intro st out h u hu
    unfold worklistLoop at h
    split at h
    · cases h
      exact hu
    · exact ih _ _ h u (worklistStep_allUsernames_mono env sl st hu)

/-! ## Helper lemmas: the heuristic report -/

lemma heuristicAnalysis_fields (person : PersonEntity) (lang : Language) (reason : String) :
    (heuristicAnalysis person lang reason).confidence = ⟨25, 100⟩
    ∧ (heuristicAnalysis person lang reason).model = Option.some "heuristic"
    ∧ (heuristicAnalysis person lang reason).rawReason = Option.some reason := by
  unfold heuristicAnalysis
  cases lang <;> simp

/-! ## Specification-side predicates (stated from the claims' wording,
for comparison with the embedded code) -/

/-- The confidence clamp as the specification states it: with no text
samples and no activity timestamps, clamp to 0.55 when at least three
profile objects were shipped and to 0.35 otherwise; else pass the
validated confidence through. -/
def claimConfidence (hasText hasTimestamps : Bool) (nProfiles : Nat) (c : Q) : Q :=
  if ¬hasText ∧ ¬hasTimestamps then
    (if 3 ≤ nProfiles then qMin c ⟨55, 100⟩ else qMin c ⟨35, 100⟩)
  else c

/-- The template-retry condition exactly as the claim states it: known
boilerplate summary, OR empty highlights, OR *every* highlight in the
placeholder set, OR the summary lacks *both* the `## 1.` and `## 6.`
anchors. -/
def claimTemplateCondition (parsed : AIReportPayload) : Bool :=
  let hl := parsed.highlights.map fun x => pyLower (pyStrip x)
  templateBoilerplate parsed
    || hl.isEmpty
    || hl.all (fun x => templatePlaceholders.contains x)
    || (¬ hasSectionAnchor '1' (pyStrip parsed.summary)
          ∧ ¬ hasSectionAnchor '6' (pyStrip parsed.summary))

/-- The corrected template-retry condition: *some* placeholder highlight
suffices, and lacking *either* anchor suffices. -/
def amendedTemplateCondition (parsed : AIReportPayload) : Bool :=
  let hl := parsed.highlights.map fun x => pyLower (pyStrip x)
  templateBoilerplate parsed
    || hl.isEmpty
    || hl.any (fun x => templatePlaceholders.contains x)
    || !hasSectionAnchor '1' (pyStrip parsed.summary)
    || !hasSectionAnchor '6' (pyStrip parsed.summary)

/-- "The input consists of exactly one top-level JSON object body,
possibly surrounded by outer whitespace", as C8's claim states it: the
text parses under `json.loads` to an object (whitespace tolerated). -/
def jsonTopLevelObject (x : String) : Bool :=
  match pyJsonParse x with
  | Option.some (JVal.obj _) => true
  | _ => false

/-- Suffix after the first occurrence of `sep` (empty when absent). -/
def strAfterFirst (sep : String) (s : String) : String :=
  let rec go : List Char → List Char
    | [] => []
    | c :: rest =>
      if sep.data.isPrefixOf (c :: rest) then (c :: rest).drop sep.data.length
      else go rest
  ⟨go s.data⟩

/-- "The base URL is a loopback address (localhost/127.0.0.1/0.0.0.0)"
as the claim states it: the URL's host is one of the three loopback
names, whatever the scheme. -/
def claimIsLoopback (url : String) : Bool :=
  let u := pyLower (pyStrip url)
  let afterScheme := if isSubstr "://" u then strAfterFirst "://" u else u
  let host : String := ⟨afterScheme.data.takeWhile fun c => c ≠ '/' ∧ c ≠ ':'⟩
  host = "localhost" || host = "127.0.0.1" || host = "0.0.0.0"

/-! ## Concrete instances used by counterexamples and witnesses -/

/-- A GitHub scan against a user the API reports as missing
(`fetch_github_deep` returned `None`). -/
def c1GithubDef : ScannerDef := ⟨"GitHubScanner", fun u => .ok [githubScan u Option.none]⟩

def c1Env : HuntEnv := { usernameScanners := [c1GithubDef], emailScanners := [] }

def c1Req : HuntRequest := { usernames := ["alice"], emails := [], scanLocalpart := false }

/-- A Kaggle scan answering 404. -/
def kaggle404Def : ScannerDef :=
  ⟨"KaggleScanner", fun u => .ok [kaggleScan u ⟨404, "https://www.kaggle.com/" ++ u⟩]⟩

/-- A Kaggle scan answering 200. -/
def kaggle200Def : ScannerDef :=
  ⟨"KaggleScanner", fun u => .ok [kaggleScan u ⟨200, "https://www.kaggle.com/" ++ u⟩]⟩

def c1WitnessEnv : HuntEnv := { usernameScanners := [kaggle404Def], emailScanners := [] }

def c1WitnessProfile : SocialProfile := kaggleScan "alice" ⟨404, "https://www.kaggle.com/alice"⟩

def emptyPipelineResult : PipelineResult := ⟨⟨"target", []⟩, [], [], []⟩

def c1WitnessRes : PipelineResult := (huntModel c1WitnessEnv c1Req 5).getD emptyPipelineResult

/-- A Gravatar scan answering 404 (no avatar). -/
def gravatar404Def : ScannerDef :=
  ⟨"GravatarScanner", fun e =>
    .ok [gravatarScan e "d41d8cd98f00b204e9800998ecf8427e"
      ⟨404, "https://www.gravatar.com/avatar/d41d8cd98f00b204e9800998ecf8427e?s=200&d=404"⟩]⟩

def c2Env : HuntEnv := { usernameScanners := [], emailScanners := [gravatar404Def] }

def c2Req : HuntRequest :=
  { usernames := [], emails := ["a@b.com"], scanLocalpart := false, strict := true }

def c2WitnessEnv : HuntEnv := { usernameScanners := [kaggle200Def], emailScanners := [] }

def c2WitnessReq : HuntRequest :=
  { usernames := ["alice"], emails := [], scanLocalpart := false, strict := true }

def c2WitnessRes : PipelineResult := (huntModel c2WitnessEnv c2WitnessReq 5).getD emptyPipelineResult

def c2WitnessProfile : SocialProfile := kaggleScan "alice" ⟨200, "https://www.kaggle.com/alice"⟩

def c3WitnessEnv : HuntEnv :=
  { usernameScanners := [kaggle200Def, kaggle200Def], emailScanners := [] }

def c3WitnessRes : PipelineResult := (huntModel c3WitnessEnv c2WitnessReq 5).getD emptyPipelineResult

/-- Groq settings with no retry budget. -/
def c4Cfg0 : AIConfig :=
  { aiApiKey := Option.some "k", aiBaseUrl := "https://api.groq.com/openai/v1",
    aiModel := "llama-x", aiMaxRetries := 0 }

def c4Cfg1 : AIConfig := { c4Cfg0 with aiMaxRetries := 1 }

def c4RejectMsg : String :=
  "Error code: 404 - the model `llama-x` does not exist or you do not have access to it"

/-- Provider that always rejects the requested model. -/
def c4Env0 : Nat → ProviderOutcome := fun _ => .apiStatus 404 c4RejectMsg

/-- Provider that rejects the model once, then times out. -/
def c4Env1 : Nat → ProviderOutcome := fun n =>
  if n = 0 then .apiStatus 404 c4RejectMsg else .transient "APITimeoutError"

/-- A parsed payload with a well-formed six-section summary and one real
highlight next to one placeholder highlight. -/
def c5Payload : AIReportPayload :=
  { summary := "## 1. Identity\nreal analysis\n## 6. Attack surface\nmore analysis"
    highlights := ["3-5 high-impact deductions.", "Account created in 2014, active on weekdays"]
    confidence := ⟨1, 2⟩ }

/-- A payload whose summary has section 1 but not section 6. -/
def c5PayloadHalf : AIReportPayload :=
  { summary := "## 1. Identity\nreal analysis only here"
    highlights := ["Account created in 2014, active on weekdays"]
    confidence := ⟨1, 2⟩ }

/-- A single JSON object that contains a fenced block inside one of its
string values. -/
def c8Tricky : String := "\x7b\"a\": \"```json \x7b\x7d ```\"\x7d"

def c8Plain : String := " \x7b\"a\": 1\x7d "

/-- A config with a blank API key and an `https` loopback base URL:
`localhost`, yet not matched by the code's `http://`-prefix test. -/
def c7Cfg : AIConfig :=
  { aiApiKey := Option.some "   ", aiBaseUrl := "https://localhost/v1",
    aiModel := "m", aiMaxRetries := 2 }

def c7Person : PersonEntity := { target := "t", profiles := [] }

/-- A provider that would answer if it were ever called. -/
def c7Env : Nat → ProviderOutcome := fun _ => .content "never reached"

def c10Person : PersonEntity :=
  { target := "t"
    profiles :=
      [{ url := "https://a", username := "u", network_name := "n1", existe := true },
       { url := "https://b", username := "u", network_name := "n2", existe := false },
       { url := "https://c", username := "u", network_name := "n3", existe := false }] }

def c10Cfg : AIConfig :=
  { aiApiKey := Option.none, aiBaseUrl := "https://api.deepseek.com",
    aiModel := "deepseek-chat", aiMaxRetries := 3 }

def c10Env : Nat → ProviderOutcome := fun _ => .otherExc "RuntimeError"

def c10Outcome : AnalyzeOutcome :=
  (analyzePersonModel c10Env c10Cfg Language.english c10Person).getD
    ⟨⟨"", [], ⟨0, 1⟩, Option.none, Option.none⟩, [], []⟩

/-- A well-formed fenced provider response. -/
def c6Raw : String :=
  "```json\n\x7b\"summary\": \"## 1. a\\n## 6. b\", \"highlights\": [\"x\"], \"confidence\": 1\x7d\n```"

def c6Parsed : AIReportPayload :=
  { summary := "## 1. a\n## 6. b", highlights := ["x"], confidence := ⟨1, 1⟩ }

def c6Env : Nat → ProviderOutcome := fun _ => .content c6Raw

/-! ## Helper lemmas: per-scanner error evidence -/

lemma githubScan_errEvidence (u : String) (api : Option MetaDict) :
    profileErrEvidence (githubScan u api) := by
  intro _
  right; right
  show dictHas (dictUnion [("source", MVal.s "github_api")] (api.getD [])) "source" = true
  exact dictHas_dictUnion_left _ _ _ (by rfl)

lemma redditScan_errEvidence (u : String) (api : Option MetaDict) :
    profileErrEvidence (redditScan u api) := by
  intro _
  right; right
  show dictHas (dictUnion [("source", MVal.s "reddit_about_json")] (api.getD [])) "source" = true
  exact dictHas_dictUnion_left _ _ _ (by rfl)

lemma kaggleScan_errEvidence (u : String) (r : HttpResp) :
    profileErrEvidence (kaggleScan u r) := by
  intro _
  left
  rfl

lemma xScan_errEvidence (u : String) (r : HttpResp) :
    profileErrEvidence (xScan u r) := by
  intro _
  left
  rfl

lemma gitlabScan_errEvidence (u : String) (r : HttpResp) (t s : Option String) :
    profileErrEvidence (gitlabScan u r t s) := by
  intro _
  left
  rfl

lemma pinterestScan_errEvidence (u : String) (r : HttpResp) (e : PinterestExtract) :
    profileErrEvidence (pinterestScan u r e) := by
  unfold profileErrEvidence pinterestScan
  repeat' split
  all_goals intro h
  all_goals first
    | (left; rfl)
    | simp at h

lemma mediumScan_errEvidence (u : String) (r : HttpResp) (a b c : Option String)
    (posts : List (String × String)) :
    profileErrEvidence (mediumScan u r a b c posts) := by
  unfold profileErrEvidence mediumScan
  repeat' split
  all_goals intro h
  all_goals first
    | (left; rfl)
    | simp at h

lemma telegramScan_errEvidence (u : String) (r : HttpResp) (og : String)
    (pn : Option String) (av : Option (Option String)) (p : SocialProfile)
    (h : telegramScan u r og pn av = Except.ok p) : profileErrEvidence p := by
  unfold telegramScan at h
  repeat' split at h
  any_goals cases h
  all_goals try (injection h with h2; subst h2)
  all_goals intro he
  all_goals first
    | (left; rfl)
    | simp at he

lemma twitchScan_errEvidence (u : String) (r : HttpResp) (og : Option String)
    (d : Option String) (av : Option (Option String)) (p : SocialProfile)
    (h : twitchScan u r og d av = Except.ok p) : profileErrEvidence p := by
  unfold twitchScan at h
  repeat' split at h
  any_goals cases h
  all_goals try (injection h with h2; subst h2)
  all_goals intro he
  all_goals first
    | (left; rfl)
    | simp at he

lemma aboutmeScan_errEvidence (u : String) (r : HttpResp) (e : AboutMeExtract)
    (ps : List SocialProfile) (h : aboutmeScan u r e = Except.ok ps) :
    ∀ p ∈ ps, profileErrEvidence p := by
  unfold aboutmeScan at h
  repeat' split at h
  any_goals cases h
  all_goals try (injection h with h2; subst h2)
  all_goals intro p hp
  all_goals rcases List.mem_cons.mp hp with rfl | hp2
  all_goals first
    | (intro he
       first
         | (left; rfl)
         | simp at he)
    | (obtain ⟨link, hlink, rfl⟩ := List.mem_map.mp hp2
       intro he
       simp at he)
    | simp at hp2

lemma gravatarScan_errEvidence (u m : String) (r : HttpResp) :
    profileErrEvidence (gravatarScan u m r) := by
  intro _
  left
  rfl

lemma gravatarProfileScan_errEvidence (u m : String) (r : HttpResp)
    (pr : Except String (Option GravatarEntry)) :
    profileErrEvidence (gravatarProfileScan u m r pr) := by
  intro _
  left
  by_cases hs : r.status = 200
  · rcases pr with msg | o
    · simp only [gravatarProfileScan, if_pos hs]
      rfl
    · rcases o with _ | entry
      · simp only [gravatarProfileScan, if_pos hs]
        rfl
      · obtain ⟨a, t, dn, pu, us⟩ := entry
        rcases dn with _ | d <;> rcases pu with _ | p <;> rcases us with _ | ul <;>
          (simp only [gravatarProfileScan, if_pos hs]; rfl)
  · simp only [gravatarProfileScan, if_neg hs]
    rfl

lemma openpgpkeysScan_errEvidence (u : String) (r : HttpResp) (t : String) :
    profileErrEvidence (openpgpkeysScan u r t) := by
  intro _
  left
  rfl

lemma ubuntukeyserverScan_errEvidence (u : String) (r : HttpResp) (t : String) :
    profileErrEvidence (ubuntukeyserverScan u r t) := by
  intro _
  left
  rfl

lemma specScan_errEvidence (n u : String) (r : HttpResp) (b : Bool) :
    profileErrEvidence (specScan n u r b) := by
  intro _
  left
  rfl

/-! ## Helper lemmas: evidence preservation through the post-phase -/

lemma mem_dedupeProfiles {p : SocialProfile} {l : List SocialProfile}
    (h : p ∈ dedupeProfiles l) : p ∈ l := by
  rw [dedupeProfiles_eq_keepFirsts] at h
  exact mem_keepFirsts h

lemma postPhase_profiles_evidence (env : HuntEnv) (req : HuntRequest) (wl : WorklistState)
    (hwl : ∀ p ∈ wl.profiles, profileErrEvidence p)
    (hus : ∀ us, ∀ p ∈ env.runUsernameSites us, profileErrEvidence p)
    (hes : ∀ es, ∀ p ∈ env.runEmailSites es, profileErrEvidence p)
    (hsh : ∀ us, ∀ p ∈ env.runSherlock us, profileErrEvidence p) :
    ∀ p ∈ (postPhase env req wl).person.profiles, profileErrEvidence p := by
  intro p hp
  have hp' : p ∈ enrichProfiles env.enrichFetch
      (if req.strict ∧ ¬ wl.allUsernames.isEmpty then
        (dedupeProfiles (wl.profiles
          ++ (if req.siteListsEnabled ∧ ¬ wl.allUsernames.isEmpty
                ∧ env.usernameSitesAvailable then
                env.runUsernameSites wl.allUsernames
              else [])
          ++ (if req.siteListsEnabled ∧ ¬ wl.allEmails.isEmpty
                ∧ env.emailSitesAvailable then
                env.runEmailSites wl.allEmails
              else [])
          ++ (if req.useSherlock ∧ ¬ wl.allUsernames.isEmpty then
                env.runSherlock wl.allUsernames
              else []))).filter
          (fun q => wl.allUsernames.any fun u => strictKeepProfile q u)
      else
        dedupeProfiles (wl.profiles
          ++ (if req.siteListsEnabled ∧ ¬ wl.allUsernames.isEmpty
                ∧ env.usernameSitesAvailable then
                env.runUsernameSites wl.allUsernames
              else [])
          ++ (if req.siteListsEnabled ∧ ¬ wl.allEmails.isEmpty
                ∧ env.emailSitesAvailable then
                env.runEmailSites wl.allEmails
              else [])
          ++ (if req.useSherlock ∧ ¬ wl.allUsernames.isEmpty then
                env.runSherlock wl.allUsernames
              else []))) := hp
  simp only [enrichProfiles] at hp'
  obtain ⟨q, hq, rfl⟩ := List.mem_map.mp hp'
  refine profileErrEvidence_of_metadata_superset ?_ (enrichOne_existe _ _)
    (fun k hk => enrichOne_metadata_has _ _ _ hk)
  have hq2 : q ∈ dedupeProfiles (wl.profiles
      ++ (if req.siteListsEnabled ∧ ¬ wl.allUsernames.isEmpty
            ∧ env.usernameSitesAvailable then
            env.runUsernameSites wl.allUsernames
          else [])
      ++ (if req.siteListsEnabled ∧ ¬ wl.allEmails.isEmpty
            ∧ env.emailSitesAvailable then
            env.runEmailSites wl.allEmails
          else [])
      ++ (if req.useSherlock ∧ ¬ wl.allUsernames.isEmpty then
            env.runSherlock wl.allUsernames
          else [])) := by
    split at hq
    · exact (List.mem_filter.mp hq).1
    · exact hq
  have hq3 := mem_dedupeProfiles hq2
  rcases List.mem_append.mp hq3 with h123 | h4
  · rcases List.mem_append.mp h123 with h12 | h3
    · rcases List.mem_append.mp h12 with h1 | h2
      · exact hwl q h1
      · split at h2
        · exact hus _ q h2
        · simp at h2
    · split at h3
      · exact hes _ q h3
      · simp at h3
  · split at h4
    · exact hsh _ q h4
    · simp at h4

lemma postPhase_strict_existe (env : HuntEnv) (req : HuntRequest) (wl : WorklistState)
    (hstrict : req.strict = true) (hne : ¬ wl.allUsernames.isEmpty = true) :
    ∀ p ∈ (postPhase env req wl).person.profiles, p.existe = true := by
  intro p hp
  have hp' : p ∈ enrichProfiles env.enrichFetch
      (if req.strict ∧ ¬ wl.allUsernames.isEmpty then
        (dedupeProfiles (wl.profiles
      ++ (if req.siteListsEnabled ∧ ¬ wl.allUsernames.isEmpty
            ∧ env.usernameSitesAvailable then
            env.runUsernameSites wl.allUsernames
          else [])
      ++ (if req.siteListsEnabled ∧ ¬ wl.allEmails.isEmpty
            ∧ env.emailSitesAvailable then
            env.runEmailSites wl.allEmails
          else [])
      ++ (if req.useSherlock ∧ ¬ wl.allUsernames.isEmpty then
            env.runSherlock wl.allUsernames
          else []))).filter
          (fun q => wl.allUsernames.any fun u => strictKeepProfile q u)
      else
        dedupeProfiles (wl.profiles
      ++ (if req.siteListsEnabled ∧ ¬ wl.allUsernames.isEmpty
            ∧ env.usernameSitesAvailable then
            env.runUsernameSites wl.allUsernames
          else [])
      ++ (if req.siteListsEnabled ∧ ¬ wl.allEmails.isEmpty
            ∧ env.emailSitesAvailable then
            env.runEmailSites wl.allEmails
          else [])
      ++ (if req.useSherlock ∧ ¬ wl.allUsernames.isEmpty then
            env.runSherlock wl.allUsernames
          else []))) := hp
  rw [if_pos ⟨hstrict, hne⟩] at hp'
  simp only [enrichProfiles] at hp'
  obtain ⟨q, hq, rfl⟩ := List.mem_map.mp hp'
  rw [enrichOne_existe]
  obtain ⟨hqd, hqk⟩ := List.mem_filter.mp hq
  obtain ⟨u, hu, hk⟩ := List.any_eq_true.mp hqk
  exact strictKeepProfile_existe hk

lemma postPhase_profiles_pairwise (env : HuntEnv) (req : HuntRequest) (wl : WorklistState) :
    (postPhase env req wl).person.profiles.Pairwise
      (fun p q => profileKey p ≠ profileKey q) := by
  have h : (postPhase env req wl).person.profiles
      = enrichProfiles env.enrichFetch
        (if req.strict ∧ ¬ wl.allUsernames.isEmpty then
          (dedupeProfiles (wl.profiles
      ++ (if req.siteListsEnabled ∧ ¬ wl.allUsernames.isEmpty
            ∧ env.usernameSitesAvailable then
            env.runUsernameSites wl.allUsernames
          else [])
      ++ (if req.siteListsEnabled ∧ ¬ wl.allEmails.isEmpty
            ∧ env.emailSitesAvailable then
            env.runEmailSites wl.allEmails
          else [])
      ++ (if req.useSherlock ∧ ¬ wl.allUsernames.isEmpty then
            env.runSherlock wl.allUsernames
          else []))).filter
            (fun q => wl.allUsernames.any fun u => strictKeepProfile q u)
        else
          dedupeProfiles (wl.profiles
      ++ (if req.siteListsEnabled ∧ ¬ wl.allUsernames.isEmpty
            ∧ env.usernameSitesAvailable then
            env.runUsernameSites wl.allUsernames
          else [])
      ++ (if req.siteListsEnabled ∧ ¬ wl.allEmails.isEmpty
            ∧ env.emailSitesAvailable then
            env.runEmailSites wl.allEmails
          else [])
      ++ (if req.useSherlock ∧ ¬ wl.allUsernames.isEmpty then
            env.runSherlock wl.allUsernames
          else []))) := rfl
  rw [h]
  simp only [enrichProfiles]
  rw [List.pairwise_map]
  have hd := dedupeProfiles_pairwise (wl.profiles
      ++ (if req.siteListsEnabled ∧ ¬ wl.allUsernames.isEmpty
            ∧ env.usernameSitesAvailable then
            env.runUsernameSites wl.allUsernames
          else [])
      ++ (if req.siteListsEnabled ∧ ¬ wl.allEmails.isEmpty
            ∧ env.emailSitesAvailable then
            env.runEmailSites wl.allEmails
          else [])
      ++ (if req.useSherlock ∧ ¬ wl.allUsernames.isEmpty then
            env.runSherlock wl.allUsernames
          else []))
  have hbase : (if req.strict ∧ ¬ wl.allUsernames.isEmpty then
      (dedupeProfiles (wl.profiles
      ++ (if req.siteListsEnabled ∧ ¬ wl.allUsernames.isEmpty
            ∧ env.usernameSitesAvailable then
            env.runUsernameSites wl.allUsernames
          else [])
      ++ (if req.siteListsEnabled ∧ ¬ wl.allEmails.isEmpty
            ∧ env.emailSitesAvailable then
            env.runEmailSites wl.allEmails
          else [])
      ++ (if req.useSherlock ∧ ¬ wl.allUsernames.isEmpty then
            env.runSherlock wl.allUsernames
          else []))).filter
        (fun q => wl.allUsernames.any fun u => strictKeepProfile q u)
    else
      dedupeProfiles (wl.profiles
      ++ (if req.siteListsEnabled ∧ ¬ wl.allUsernames.isEmpty
            ∧ env.usernameSitesAvailable then
            env.runUsernameSites wl.allUsernames
          else [])
      ++ (if req.siteListsEnabled ∧ ¬ wl.allEmails.isEmpty
            ∧ env.emailSitesAvailable then
            env.runEmailSites wl.allEmails
          else [])
      ++ (if req.useSherlock ∧ ¬ wl.allUsernames.isEmpty then
            env.runSherlock wl.allUsernames
          else []))).Pairwise
      (fun p q => profileKey p ≠ profileKey q) := by
    split
    · exact hd.filter _
    · exact hd
  refine hbase.imp ?_
  intro a b hab
  rw [enrichOne_key, enrichOne_key]
  exact hab

/-! # Claim theorems -/

/-- C9: `apply_input_operation` is deterministic (a pure function of its
inputs) and idempotent for `lower`, `strip` and `urlencode` — the latter
on input already in encoded form, i.e. fixed by `quote` — and every
operation name outside the recognised set returns the input unchanged. -/
theorem c9_input_operation_idempotent_and_total :
    (∀ h1 h2 h3 x, applyInputOperation h1 h2 h3
        (applyInputOperation h1 h2 h3 x (Option.some "lower")) (Option.some "lower")
      = applyInputOperation h1 h2 h3 x (Option.some "lower"))
    ∧ (∀ h1 h2 h3 x, applyInputOperation h1 h2 h3
        (applyInputOperation h1 h2 h3 x (Option.some "strip")) (Option.some "strip")
      = applyInputOperation h1 h2 h3 x (Option.some "strip"))
    ∧ (∀ h1 h2 h3 x, pyQuote x = x → applyInputOperation h1 h2 h3
        (applyInputOperation h1 h2 h3 x (Option.some "urlencode")) (Option.some "urlencode")
      = applyInputOperation h1 h2 h3 x (Option.some "urlencode"))
    ∧ (∀ h1 h2 h3 op x,
        recognisedOperations.contains (pyLower (pyStrip op)) = false →
        applyInputOperation h1 h2 h3 x (Option.some op) = x) := by
  refine ⟨?_, ?_, ?_, ?_⟩
  · intro h1 h2 h3 x
    show pyLower (pyLower x) = pyLower x
    exact pyLower_idem x
  · intro h1 h2 h3 x
    show pyStrip (pyStrip x) = pyStrip x
    exact pyStrip_idem x
  · intro h1 h2 h3 x hq
    show pyQuote (pyQuote x) = pyQuote x
    rw [hq]
    exact hq
  · intro h1 h2 h3 op x hop
    have hmem : pyLower (pyStrip op) ∉ recognisedOperations := by
      simpa using hop
    simp only [recognisedOperations, List.mem_cons, List.not_mem_nil, or_false, not_or] at hmem
    obtain ⟨n1, n2, n3, n4, n5, n6, n7, n8, n9, n10, n11, n12, n13, n14⟩ := hmem
    simp [applyInputOperation, n1, n2, n3, n4, n5, n6, n7, n8, n9, n10, n11, n12, n13, n14]

/-- Witness for C9 at concrete inputs (`urlencode` on the already-encoded
`"abc"`, and the unrecognised operation `"rot13"`). -/
theorem c9_witness :
    pyQuote "abc" = "abc"
    ∧ recognisedOperations.contains (pyLower (pyStrip "rot13")) = false
    ∧ applyInputOperation id id id
        (applyInputOperation id id id "abc" (Option.some "urlencode"))
        (Option.some "urlencode")
      = applyInputOperation id id id "abc" (Option.some "urlencode")
    ∧ applyInputOperation id id id "HeLLo" (Option.some "rot13") = "HeLLo" :=
  ⟨by decide, by decide,
   c9_input_operation_idempotent_and_total.2.2.1 id id id "abc" (by decide),
   c9_input_operation_idempotent_and_total.2.2.2 id id id "rot13" "HeLLo" (by decide)⟩

/-- C6: the confidence clamp of `analyze_person` — (1) the nested
conditional in the source equals the clamp as the claim states it,
(2) the validated payload confidence always lies in `[0, 1]`, and
(3) every successful (non-template) attempt returns a report whose
confidence is exactly the clamp applied to the parsed confidence. -/
theorem c6_confidence_clamp :
    (∀ ht hts n c, reportConfidence ht hts n c = claimConfidence ht hts n c)
    ∧ (∀ v p, validatePayload v = Option.some p →
        qLe ⟨0, 1⟩ p.confidence = true ∧ qLe p.confidence ⟨1, 1⟩ = true)
    ∧ (∀ env cfg lang ht hts n rem attempt model msgs le raw p,
        env attempt = ProviderOutcome.content raw →
        aiAttemptParse (pyStrip raw) = Except.ok p →
        (looksLikeTemplateResponse p || !(summaryHasSixSections p.summary lang)) = false →
        (aiLoopGo env cfg lang ht hts n (rem + 1) attempt model msgs le).1
          = AIResult.report
              { summary := sanitizeSummaryMarkdown p.summary
                highlights := p.highlights
                confidence := reportConfidence ht hts n p.confidence
                model := Option.some model
                rawReason := Option.none }) := by
  refine ⟨?_, ?_, ?_⟩
  · intro ht hts n c
    unfold reportConfidence claimConfidence
    by_cases h1 : ht <;> by_cases h2 : hts <;> by_cases h3 : 3 ≤ n <;> simp [h1, h2, h3]
  · intro v p h
    have hconf : ∀ o q, validateConfidenceField o = Option.some q →
        qLe ⟨0, 1⟩ q = true ∧ qLe q ⟨1, 1⟩ = true := by
      intro o q hq
      cases o with
      | none =>
        simp only [validateConfidenceField, Option.some_inj] at hq
        subst hq
        exact ⟨by decide, by decide⟩
      | some jv =>
        cases jv with
        | num q' =>
          simp only [validateConfidenceField] at hq
          split at hq
          · simp only [Option.some_inj] at hq
            subst hq
            simp_all
          · cases hq
        | str s' =>
          change (match parseLaxFloat s' with
            | Option.some q' =>
              if qLe ⟨0, 1⟩ q' = true ∧ qLe q' ⟨1, 1⟩ = true then Option.some q'
              else Option.none
            | Option.none => Option.none) = Option.some q at hq
          cases hpf : parseLaxFloat s' with
          | none => rw [hpf] at hq; cases hq
          | some q' =>
            rw [hpf] at hq
            change (if qLe ⟨0, 1⟩ q' = true ∧ qLe q' ⟨1, 1⟩ = true then Option.some q'
              else Option.none) = Option.some q at hq
            split at hq
            · injection hq with hqq
              subst hqq
              simp_all
            · cases hq
        | null => cases hq
        | jb b => cases hq
        | nan => cases hq
        | inf => cases hq
        | ninf => cases hq
        | arr l => cases hq
        | obj o' => cases hq
    cases v with
    | obj fields =>
      rw [show validatePayload (JVal.obj fields)
          = (validateSummaryField (objGet fields "summary")).bind
            (fun summary => (validateHighlightsField (objGet fields "highlights")).bind
              (fun highlights => (validateConfidenceField (objGet fields "confidence")).bind
                (fun confidence => Option.some
                  { summary := summary, highlights := highlights,
                    confidence := confidence }))) from rfl] at h
      simp only [Option.bind_eq_some] at h
      obtain ⟨s, hs, h⟩ := h
      obtain ⟨hl, hhl, h⟩ := h
      obtain ⟨c, hc, hp⟩ := h
      simp only [Option.some_inj] at hp
      subst hp
      exact hconf _ _ hc
    | null => simp [validatePayload] at h
    | jb b => simp [validatePayload] at h
    | num q => simp [validatePayload] at h
    | nan => simp [validatePayload] at h
    | inf => simp [validatePayload] at h
    | ninf => simp [validatePayload] at h
    | str s => simp [validatePayload] at h
    | arr l => simp [validatePayload] at h
  · intro env cfg lang ht hts n rem attempt model msgs le raw p henv hparse hcond
    unfold aiLoopGo
    rw [henv]
    simp only [hparse, hcond, Bool.false_eq_true, if_false]

/-- Witness for C6: a concrete validated payload and one concrete
successful attempt. -/
theorem c6_witness :
    validatePayload (JVal.obj [("summary", .str "s"), ("confidence", .num ⟨8, 10⟩)])
      = Option.some ⟨"s", [], ⟨8, 10⟩⟩
    ∧ (qLe ⟨0, 1⟩ (⟨8, 10⟩ : Q) = true ∧ qLe (⟨8, 10⟩ : Q) ⟨1, 1⟩ = true)
    ∧ (aiLoopGo c6Env c10Cfg Language.english false false 0 1 0 "deepseek-chat" [] Option.none).1
      = AIResult.report
          { summary := sanitizeSummaryMarkdown c6Parsed.summary
            highlights := c6Parsed.highlights
            confidence := reportConfidence false false 0 c6Parsed.confidence
            model := Option.some "deepseek-chat"
            rawReason := Option.none } :=
  ⟨by decide,
   c6_confidence_clamp.2.1 (JVal.obj [("summary", .str "s"), ("confidence", .num ⟨8, 10⟩)])
     ⟨"s", [], ⟨8, 10⟩⟩ (by decide),
   c6_confidence_clamp.2.2 c6Env c10Cfg Language.english false false 0 0 0 "deepseek-chat"
     [] Option.none c6Raw c6Parsed rfl (by decide) (by decide)⟩

/-- C5 counterexample: a payload whose summary carries both anchors and
whose highlights are non-empty and not all placeholders — under the
claim's condition it must not be treated as a template, yet the code
retries it (one placeholder highlight triggers the `any` check). -/
theorem c5_counterexample :
    claimTemplateCondition c5Payload = false
    ∧ templateRetryCondition c5Payload Language.english = true
    ∧ templateRetryCondition c5Payload Language.spanish = true := by
  decide

lemma singleton_placeholder_imp_any (hl : List String)
    (h : (match hl with
          | [h0] => templatePlaceholders.contains h0
          | _ => false) = true) :
    hl.any (fun x => templatePlaceholders.contains x) = true := by
  match hl with
  | [] => simp at h
  | [h0] => simpa using h
  | a :: b :: rest => simp at h

lemma summaryHasSixSections_eq (s : String) (lang : Language) :
    summaryHasSixSections s lang
      = (hasSectionAnchor '1' (pyStrip s) && hasSectionAnchor '6' (pyStrip s)) := by
  unfold summaryHasSixSections
  by_cases hs : pyStrip s = ""
  · rw [hs]
    simp [hasSectionAnchor, hasSectionAnchor.go]
  · cases lang <;> simp [hs]

lemma looksLikeTemplateResponse_eq (parsed : AIReportPayload) :
    looksLikeTemplateResponse parsed
      = (templateBoilerplate parsed
          || (parsed.highlights.map fun x => pyLower (pyStrip x)).isEmpty
          || (parsed.highlights.map fun x => pyLower (pyStrip x)).any
              (fun x => templatePlaceholders.contains x)) := by
  unfold looksLikeTemplateResponse
  by_cases hb : pyLower (pyStrip parsed.summary) = "markdown text with the six sections above."
      ∨ pyLower (pyStrip parsed.summary) = "texto en markdown con las seis secciones."
  · rw [if_pos hb]
    have hbt : templateBoilerplate parsed = true := by
      rcases hb with h | h <;> simp [templateBoilerplate, h]
    rw [hbt, Bool.true_or, Bool.true_or]
  · rw [if_neg hb]
    push_neg at hb
    have hbf : templateBoilerplate parsed = false := by
      simp [templateBoilerplate, hb.1, hb.2]
    rw [hbf, Bool.false_or]
    by_cases he : (parsed.highlights.map fun x => pyLower (pyStrip x)).isEmpty = true
    · rw [if_pos he, he, Bool.true_or]
    · rw [if_neg he, Bool.eq_false_iff.mpr he, Bool.false_or]
      by_cases hm : (match parsed.highlights.map fun x => pyLower (pyStrip x) with
                     | [h0] => templatePlaceholders.contains h0
                     | _ => false) = true
      · rw [if_pos hm, singleton_placeholder_imp_any _ hm]
      · rw [if_neg hm]
        by_cases ha : ((parsed.highlights.map fun x => pyLower (pyStrip x)).any
            (fun x => templatePlaceholders.contains x)) = true
        · rw [if_pos ha, ha]
        · rw [if_neg ha, Bool.eq_false_iff.mpr ha]

theorem c5_template_condition_amended (parsed : AIReportPayload) (lang : Language) :
    templateRetryCondition parsed lang = amendedTemplateCondition parsed := by
  show (looksLikeTemplateResponse parsed || !summaryHasSixSections parsed.summary lang)
      = amendedTemplateCondition parsed
  rw [looksLikeTemplateResponse_eq, summaryHasSixSections_eq]
  show _ = (templateBoilerplate parsed
      || (parsed.highlights.map fun x => pyLower (pyStrip x)).isEmpty
      || (parsed.highlights.map fun x => pyLower (pyStrip x)).any
          (fun x => templatePlaceholders.contains x)
      || !hasSectionAnchor '1' (pyStrip parsed.summary)
      || !hasSectionAnchor '6' (pyStrip parsed.summary))
  rw [Bool.not_and]
  simp only [Bool.or_assoc]


/-- C7 counterexample: `https://localhost/v1` is a loopback address in
the claim's sense (host `localhost`), the key is blank, yet the code's
`_is_local_base_url` — which only tests the three `http://` prefixes —
rejects it, so `analyze_person` answers heuristically without calling
the provider instead of substituting the literal key `"local"`. -/
theorem c7_counterexample :
    claimIsLoopback "https://localhost/v1" = true
    ∧ isLocalBaseUrl "https://localhost/v1" = false
    ∧ missingKeyPolicy (Option.some "   ") "https://localhost/v1"
        = KeyPolicy.heuristicFallback "missing_ai_api_key"
    ∧ ((analyzePersonModel c7Env c7Cfg Language.english c7Person).map
        fun o => (o.trace, o.report.model, o.report.rawReason))
      = Option.some ([], Option.some "heuristic", Option.some "missing_ai_api_key") := by
  decide

/-- C7 amended: with a blank (or absent) API key, the adapter proceeds
with the literal key `"local"` exactly when the base URL starts with
`http://localhost`, `http://127.0.0.1` or `http://0.0.0.0` (after
strip/lower) — not for every loopback host; otherwise it returns the
heuristic report (confidence 25/100, model `heuristic`, raw reason
`missing_ai_api_key`) without issuing any provider call. -/
theorem c7_missing_key_policy_amended (cfg : AIConfig) (person : PersonEntity)
    (env : Nat → ProviderOutcome) (lang : Language) (purged : List SocialProfile)
    (hkey : pyStrip (cfg.aiApiKey.getD "") = "")
    (hpurge : purgeProfiles person.profiles = Option.some purged) :
    (isLocalBaseUrl cfg.aiBaseUrl = true →
      missingKeyPolicy cfg.aiApiKey cfg.aiBaseUrl = KeyPolicy.proceed "local")
    ∧ (isLocalBaseUrl cfg.aiBaseUrl = false →
      missingKeyPolicy cfg.aiApiKey cfg.aiBaseUrl
          = KeyPolicy.heuristicFallback "missing_ai_api_key"
        ∧ analyzePersonModel env cfg lang person
          = Option.some ⟨heuristicAnalysis { person with profiles := purged } lang
              "missing_ai_api_key", purged, []⟩
        ∧ ((analyzePersonModel env cfg lang person).map
            fun o => (o.trace, o.report.confidence, o.report.model, o.report.rawReason))
          = Option.some ([], ⟨25, 100⟩, Option.some "heuristic",
              Option.some "missing_ai_api_key")) := by
  constructor
  · intro hl
    unfold missingKeyPolicy
    rw [hkey]
    simp [hl]
  · intro hl
    have hpol : missingKeyPolicy cfg.aiApiKey cfg.aiBaseUrl
        = KeyPolicy.heuristicFallback "missing_ai_api_key" := by
      unfold missingKeyPolicy
      rw [hkey]
      simp [hl]
    have hMain : analyzePersonModel env cfg lang person
        = Option.some ⟨heuristicAnalysis { person with profiles := purged } lang
            "missing_ai_api_key", purged, []⟩ := by
      unfold analyzePersonModel
      rw [hpurge, hpol]
    obtain ⟨hc, hm, hr⟩ :=
      heuristicAnalysis_fields { person with profiles := purged } lang "missing_ai_api_key"
    refine ⟨hpol, hMain, ?_⟩
    rw [hMain]
    simp [hc, hm, hr]

/-- Witness for C7's amended theorem at the concrete blank-key,
non-`http://` configuration. -/
theorem c7_witness :
    (pyStrip (c7Cfg.aiApiKey.getD "") = ""
      ∧ purgeProfiles c7Person.profiles = Option.some [])
    ∧ (isLocalBaseUrl c7Cfg.aiBaseUrl = false →
      missingKeyPolicy c7Cfg.aiApiKey c7Cfg.aiBaseUrl
          = KeyPolicy.heuristicFallback "missing_ai_api_key"
        ∧ analyzePersonModel c7Env c7Cfg Language.english c7Person
          = Option.some ⟨heuristicAnalysis { c7Person with profiles := [] } Language.english
              "missing_ai_api_key", [], []⟩
        ∧ ((analyzePersonModel c7Env c7Cfg Language.english c7Person).map
            fun o => (o.trace, o.report.confidence, o.report.model, o.report.rawReason))
          = Option.some ([], ⟨25, 100⟩, Option.some "heuristic",
              Option.some "missing_ai_api_key")) :=
  ⟨⟨by decide, by decide⟩,
   (c7_missing_key_policy_amended c7Cfg c7Person c7Env Language.english []
      (by decide) (by decide)).2⟩


/-- C8 counterexample: a single top-level JSON object whose sole string
value happens to contain a ```json fence.  The fence regex matches
inside that value, so `_extract_json_object` returns the inner "\x7b\x7d"
instead of the whitespace-stripped input. -/
theorem c8_counterexample :
    jsonTopLevelObject c8Tricky = true
    ∧ extractJsonObject c8Tricky = Option.some "\x7b\x7d"
    ∧ extractJsonObject c8Tricky ≠ Option.some (pyStrip c8Tricky) := by
  decide

/-- C8 amended: the extractor is a retraction — `extract(x)` equals the
whitespace-stripped `x` — for brace-delimited inputs in which the fence
pattern does not occur anywhere (the code tries the fence regex first,
and a fence inside a string value wins over the whole-body branch). -/
theorem c8_extractor_retraction_amended (x : String)
    (hf : fenceSearch x = Option.none)
    (hs : pyStartsWith (pyStrip x) "\x7b" = true)
    (he : pyEndsWith (pyStrip x) "\x7d" = true) :
    extractJsonObject x = Option.some (pyStrip x) := by
  unfold extractJsonObject
  rw [hf]
  exact if_pos ⟨hs, he⟩

/-- Witness for C8's amended theorem on a plain brace-delimited input. -/
theorem c8_witness :
    (fenceSearch c8Plain = Option.none
      ∧ pyStartsWith (pyStrip c8Plain) "\x7b" = true
      ∧ pyEndsWith (pyStrip c8Plain) "\x7d" = true)
    ∧ extractJsonObject c8Plain = Option.some (pyStrip c8Plain) :=
  ⟨⟨by decide, by decide, by decide⟩,
   c8_extractor_retraction_amended c8Plain (by decide) (by decide) (by decide)⟩


/-- C10: `analyze_person` purges the caller's aggregate — the purge loop
runs on the `model_copy()`'s `profiles`, which is the *same list object*
as the input's, so after every call the caller's `person.profiles` is
its old value filtered to the confirmed (`existe = true`) profiles, and
in particular holds no profile with `existe = false`. -/
theorem c10_analyze_person_purges_caller (env : Nat → ProviderOutcome) (cfg : AIConfig)
    (lang : Language) (person : PersonEntity) :
    purgeProfiles person.profiles = Option.some (person.profiles.filter (·.existe))
    ∧ ∀ out, analyzePersonModel env cfg lang person = Option.some out →
      out.callerProfiles = person.profiles.filter (·.existe)
      ∧ ∀ p ∈ out.callerProfiles, p.existe = true := by
  refine ⟨purgeProfiles_eq _, ?_⟩
  intro out h
  have hmem : ∀ p ∈ person.profiles.filter (·.existe), p.existe = true := by
    intro p hp
    exact (List.mem_filter.mp hp).2
  suffices hcp : out.callerProfiles = person.profiles.filter (·.existe) by
    refine ⟨hcp, ?_⟩
    rw [hcp]
    exact hmem
  unfold analyzePersonModel at h
  rw [purgeProfiles_eq] at h
  cases hk : missingKeyPolicy cfg.aiApiKey cfg.aiBaseUrl with
  | heuristicFallback reason =>
    rw [hk] at h
    dsimp only at h
    injection h with h2
    rw [← h2]
  | proceed key =>
    rw [hk] at h
    dsimp only at h
    rcases hcore : analyzePersonCore env cfg lang
        { person with profiles := person.profiles.filter (·.existe) } with ⟨result, trace⟩
    rw [hcore] at h
    cases result with
    | report r =>
      injection h with h2
      rw [← h2]
    | heuristic reason =>
      injection h with h2
      rw [← h2]

set_option maxRecDepth 8192 in
/-- Witness for C10 at a concrete aggregate with two dead profiles and a
provider whose failure routes the call through the heuristic branch. -/
theorem c10_witness :
    analyzePersonModel c10Env c10Cfg Language.english c10Person = Option.some c10Outcome
    ∧ c10Outcome.callerProfiles = c10Person.profiles.filter (·.existe) :=
  have heq : analyzePersonModel c10Env c10Cfg Language.english c10Person
      = Option.some c10Outcome := by decide
  ⟨heq, ((c10_analyze_person_purges_caller c10Env c10Cfg Language.english c10Person).2
      c10Outcome heq).1⟩


/-- C4 counterexample: the model-fallback `continue` advances the
`for attempt in range(...)` loop, so it *does* consume an iteration.
With `ai_max_retries = 0` the rejected first call exhausts the loop and
the fallback model is never sent at all; with `ai_max_retries = 1` the
fallback call runs as attempt 1, and its transient failure is final —
the ordinary retry that was available before the switch is gone. -/
theorem c4_counterexample :
    fallbackModelFor c4Cfg0.aiBaseUrl = Option.some "llama-3.1-8b-instant"
    ∧ looksLikeModelRejection c4RejectMsg = true
    ∧ aiLoopGo c4Env0 c4Cfg0 Language.english false false 0 (aiTotalAttempts c4Cfg0) 0
        c4Cfg0.aiModel [] Option.none
      = (AIResult.heuristic "provider_failed:APIStatusError", [(0, "llama-x")])
    ∧ aiLoopGo c4Env1 c4Cfg1 Language.english false false 0 (aiTotalAttempts c4Cfg1) 0
        c4Cfg1.aiModel [] Option.none
      = (AIResult.heuristic "provider_failed:APITimeoutError",
         [(0, "llama-x"), (1, "llama-3.1-8b-instant")]) := by
  decide

/-- C4 amended: on a 400/404 model-rejection with a configured, distinct
fallback, the loop switches to the fallback model, re-selects the system
prompt, and recurses with no sleep — but at `attempt + 1` with one
fewer loop iteration left, i.e. the switch *does* consume a unit of the
`max(1, ai_max_retries + 1)` budget; in particular when it was the last
iteration the fallback request is never issued (empty remaining trace). -/
theorem c4_model_fallback_amended (env : Nat → ProviderOutcome) (cfg : AIConfig)
    (lang : Language) (hT hTs : Bool) (nP : Nat) (remaining attempt : Nat)
    (model : String) (msgs : List (String × String)) (le : Option String)
    (fb : String) (status : Nat) (msg : String)
    (henv : env attempt = ProviderOutcome.apiStatus status msg)
    (hfb : fallbackModelFor cfg.aiBaseUrl = Option.some fb)
    (hne : model ≠ fb)
    (hst : status = 400 ∨ status = 404)
    (hrej : looksLikeModelRejection msg = true) :
    aiLoopGo env cfg lang hT hTs nP (remaining + 1) attempt model msgs le
      = ((aiLoopGo env cfg lang hT hTs nP remaining (attempt + 1) fb
            (resetSystemPrompt msgs (selectSystemPrompt cfg.aiBaseUrl fb lang))
            (Option.some "APIStatusError")).1,
         (attempt, model)
           :: (aiLoopGo env cfg lang hT hTs nP remaining (attempt + 1) fb
                (resetSystemPrompt msgs (selectSystemPrompt cfg.aiBaseUrl fb lang))
                (Option.some "APIStatusError")).2)
    ∧ aiLoopGo env cfg lang hT hTs nP 0 (attempt + 1) fb
        (resetSystemPrompt msgs (selectSystemPrompt cfg.aiBaseUrl fb lang))
        (Option.some "APIStatusError")
      = (AIResult.heuristic "provider_failed:APIStatusError", []) := by
  constructor
  · rw [aiLoopGo, henv, hfb]
    dsimp only
    rw [if_pos ⟨rfl, hne, hst, hrej⟩]
    rfl
  · rfl

/-- Witness for C4's amended theorem: the Groq config with one retry,
rejected model `llama-x`, fallback `llama-3.1-8b-instant`. -/
theorem c4_witness :
    (c4Env1 0 = ProviderOutcome.apiStatus 404 c4RejectMsg
      ∧ fallbackModelFor c4Cfg1.aiBaseUrl = Option.some "llama-3.1-8b-instant"
      ∧ ("llama-x" : String) ≠ "llama-3.1-8b-instant"
      ∧ looksLikeModelRejection c4RejectMsg = true)
    ∧ aiLoopGo c4Env1 c4Cfg1 Language.english false false 0 2 0 "llama-x" [] Option.none
      = ((aiLoopGo c4Env1 c4Cfg1 Language.english false false 0 1 1 "llama-3.1-8b-instant"
            (resetSystemPrompt []
              (selectSystemPrompt c4Cfg1.aiBaseUrl "llama-3.1-8b-instant" Language.english))
            (Option.some "APIStatusError")).1,
         (0, "llama-x")
           :: (aiLoopGo c4Env1 c4Cfg1 Language.english false false 0 1 1 "llama-3.1-8b-instant"
                (resetSystemPrompt []
                  (selectSystemPrompt c4Cfg1.aiBaseUrl "llama-3.1-8b-instant" Language.english))
                (Option.some "APIStatusError")).2) :=
  ⟨⟨rfl, by decide, by decide, by decide⟩,
   (c4_model_fallback_amended c4Env1 c4Cfg1 Language.english false false 0 1 0 "llama-x"
      [] Option.none "llama-3.1-8b-instant" 404 c4RejectMsg rfl (by decide) (by decide)
      (Or.inr rfl) (by decide)).1⟩


/-- C1 counterexample: a GitHub scan whose API lookup missed.  The
emitted aggregate holds one `existe = false` profile whose metadata has
neither `status_code` nor `error` — only `source` — refuting both the
invariant as stated and the sentence "every scanner records status_code
unconditionally". -/
theorem c1_counterexample :
    ((huntModel c1Env c1Req 5).map fun r => r.person.profiles.map fun p =>
        (p.network_name, p.existe, dictHas p.metadata "status_code",
         dictHas p.metadata "error", dictHas p.metadata "source"))
      = Option.some [("github", false, false, false, true)] := by
  decide

/-- C1 amended: the invariant that actually holds is
`existe = false → status_code ∨ error ∨ source`: every embedded scanner
guarantees it profile-wise (github/reddit record only `source` on a
miss; the others record `status_code` unconditionally; the scanners that
raise on bad responses are caught by `safe_scan`, whose fallback records
`error`), and the pipeline preserves it through the worklist, dedupe,
strict filter and enrichment to the emitted aggregate. -/
theorem c1_error_evidence_amended :
    (∀ u api, profileErrEvidence (githubScan u api))
    ∧ (∀ u api, profileErrEvidence (redditScan u api))
    ∧ (∀ u r, profileErrEvidence (kaggleScan u r))
    ∧ (∀ u r, profileErrEvidence (xScan u r))
    ∧ (∀ u r t s, profileErrEvidence (gitlabScan u r t s))
    ∧ (∀ u r e, profileErrEvidence (pinterestScan u r e))
    ∧ (∀ u r a b c posts, profileErrEvidence (mediumScan u r a b c posts))
    ∧ (∀ u r og pn av p, telegramScan u r og pn av = Except.ok p → profileErrEvidence p)
    ∧ (∀ u r og d av p, twitchScan u r og d av = Except.ok p → profileErrEvidence p)
    ∧ (∀ u r e ps, aboutmeScan u r e = Except.ok ps → ∀ p ∈ ps, profileErrEvidence p)
    ∧ (∀ u m r, profileErrEvidence (gravatarScan u m r))
    ∧ (∀ u m r pr, profileErrEvidence (gravatarProfileScan u m r pr))
    ∧ (∀ u r t, profileErrEvidence (openpgpkeysScan u r t))
    ∧ (∀ u r t, profileErrEvidence (ubuntukeyserverScan u r t))
    ∧ (∀ n u r b, profileErrEvidence (specScan n u r b))
    ∧ (∀ (env : HuntEnv) (req : HuntRequest) (fuel : Nat) (res : PipelineResult),
        (∀ s ∈ env.usernameScanners, scannerErrEvidence s) →
        (∀ s ∈ env.emailScanners, scannerErrEvidence s) →
        (∀ us, ∀ p ∈ env.runUsernameSites us, profileErrEvidence p) →
        (∀ es, ∀ p ∈ env.runEmailSites es, profileErrEvidence p) →
        (∀ us, ∀ p ∈ env.runSherlock us, profileErrEvidence p) →
        huntModel env req fuel = Option.some res →
        ∀ p ∈ res.person.profiles, profileErrEvidence p) := by
  refine ⟨githubScan_errEvidence, redditScan_errEvidence, kaggleScan_errEvidence,
    xScan_errEvidence, gitlabScan_errEvidence, pinterestScan_errEvidence,
    mediumScan_errEvidence, telegramScan_errEvidence, twitchScan_errEvidence,
    aboutmeScan_errEvidence, gravatarScan_errEvidence, gravatarProfileScan_errEvidence,
    openpgpkeysScan_errEvidence, ubuntukeyserverScan_errEvidence, specScan_errEvidence, ?_⟩
  intro env req fuel res hu he hus hes hsh h
  unfold huntModel at h
  rw [Option.map_eq_some'] at h
  obtain ⟨wl, hwl, hres⟩ := h
  subst hres
  have hev := worklistLoop_profiles_inv env req.scanLocalpart hu he fuel _ wl hwl
    (by intro p hp; simp at hp)
  exact postPhase_profiles_evidence env req wl hev hus hes hsh

/-- Witness for C1's amended theorem: a 404 Kaggle scan flows through
the pipeline into an `existe = false` profile carrying `status_code`. -/
theorem c1_witness :
    huntModel c1WitnessEnv c1Req 5 = Option.some c1WitnessRes
    ∧ c1WitnessProfile ∈ c1WitnessRes.person.profiles
    ∧ c1WitnessProfile.existe = false
    ∧ (dictHas c1WitnessProfile.metadata "status_code" = true
        ∨ dictHas c1WitnessProfile.metadata "error" = true
        ∨ dictHas c1WitnessProfile.metadata "source" = true) :=
  have heq : huntModel c1WitnessEnv c1Req 5 = Option.some c1WitnessRes := by decide
  have hmem : c1WitnessProfile ∈ c1WitnessRes.person.profiles := by decide
  have hkag : ∀ u r, profileErrEvidence (kaggleScan u r) :=
    c1_error_evidence_amended.2.2.1
  have hu : ∀ s ∈ c1WitnessEnv.usernameScanners, scannerErrEvidence s := by
    intro s hs
    have hs' : s = kaggle404Def := by simpa [c1WitnessEnv] using hs
    subst hs'
    intro v
    show ∀ p ∈ [kaggleScan v ⟨404, "https://www.kaggle.com/" ++ v⟩], profileErrEvidence p
    intro p hp
    rw [List.mem_singleton] at hp
    subst hp
    exact hkag v _
  have he : ∀ s ∈ c1WitnessEnv.emailScanners, scannerErrEvidence s := by
    intro s hs
    simp [c1WitnessEnv] at hs
  have hev := c1_error_evidence_amended.2.2.2.2.2.2.2.2.2.2.2.2.2.2.2
    c1WitnessEnv c1Req 5 c1WitnessRes hu he
    (by intro us p hp; simp [c1WitnessEnv] at hp)
    (by intro es p hp; simp [c1WitnessEnv] at hp)
    (by intro us p hp; simp [c1WitnessEnv] at hp)
    heq c1WitnessProfile hmem
  ⟨heq, hmem, by decide, hev (by decide)⟩


/-- C2 counterexample: strict mode with emails only.  `hunt` applies the
strict filter only when the username set is non-empty
(`if request.strict and usernames:`), so this strict request's aggregate
keeps an `existe = false` gravatar profile. -/
theorem c2_counterexample :
    c2Req.strict = true
    ∧ ((huntModel c2Env c2Req 5).map fun r =>
        r.person.profiles.map fun p => (p.network_name, p.existe))
      = Option.some [("gravatar", false)] := by
  decide

/-- C2 amended: when strict mode is enabled *and* at least one requested
username is non-blank (so the username set the filter consults is
non-empty), every profile in the emitted aggregate has `existe = true`. -/
theorem c2_strict_filter_amended (env : HuntEnv) (req : HuntRequest) (fuel : Nat)
    (res : PipelineResult)
    (h : huntModel env req fuel = Option.some res)
    (hstrict : req.strict = true)
    (hreq : ∃ u ∈ req.usernames, pyStrip u ≠ "") :
    ∀ p ∈ res.person.profiles, p.existe = true := by
  unfold huntModel at h
  rw [Option.map_eq_some'] at h
  obtain ⟨wl, hwl, hres⟩ := h
  obtain ⟨u, hu, hune⟩ := hreq
  have hu0 : pyStrip u ∈ sortedDedup ((req.usernames.map pyStrip).filter fun x => x ≠ "") := by
    rw [mem_sortedDedup]
    exact List.mem_filter.mpr ⟨List.mem_map_of_mem pyStrip hu, by simpa using hune⟩
  have hmem : pyStrip u ∈ wl.allUsernames :=
    worklistLoop_allUsernames_mono env req.scanLocalpart fuel _ wl hwl _ hu0
  have hne : ¬ wl.allUsernames.isEmpty = true := by
    intro hE
    rw [List.isEmpty_iff] at hE
    rw [hE] at hmem
    simp at hmem
  subst hres
  exact postPhase_strict_existe env req wl hstrict hne

/-- Witness for C2's amended theorem: a strict hunt for `alice` whose
Kaggle scan answers 200 emits only confirmed profiles. -/
theorem c2_witness :
    huntModel c2WitnessEnv c2WitnessReq 5 = Option.some c2WitnessRes
    ∧ c2WitnessProfile ∈ c2WitnessRes.person.profiles
    ∧ c2WitnessProfile.existe = true :=
  have heq : huntModel c2WitnessEnv c2WitnessReq 5 = Option.some c2WitnessRes := by decide
  have hmem : c2WitnessProfile ∈ c2WitnessRes.person.profiles := by decide
  ⟨heq, hmem,
   c2_strict_filter_amended c2WitnessEnv c2WitnessReq 5 c2WitnessRes heq rfl
     ⟨"alice", by decide, by decide⟩ c2WitnessProfile hmem⟩

/-- C3: `dedupe_profiles` equals the order-stable first-occurrence-wins
specification, and the aggregate `hunt` emits never holds two profiles
with the same `(network_name, username, url)` triple — the strict filter
and the enrichment pass (which preserves each profile's key) cannot
reintroduce a duplicate. -/
theorem c3_dedupe_order_stable :
    (∀ l, dedupeProfiles l = keepFirsts l)
    ∧ (∀ l, (dedupeProfiles l).Pairwise fun p q => profileKey p ≠ profileKey q)
    ∧ (∀ (env : HuntEnv) (req : HuntRequest) (fuel : Nat) (res : PipelineResult),
        huntModel env req fuel = Option.some res →
        res.person.profiles.Pairwise fun p q => profileKey p ≠ profileKey q) := by
  refine ⟨dedupeProfiles_eq_keepFirsts, dedupeProfiles_pairwise, ?_⟩
  intro env req fuel res h
  unfold huntModel at h
  rw [Option.map_eq_some'] at h
  obtain ⟨wl, hwl, hres⟩ := h
  subst hres
  exact postPhase_profiles_pairwise env req wl

/-- Witness for C3 at a hunt whose two registered scanners return the
same profile: the duplicate is gone from the emitted aggregate. -/
theorem c3_witness :
    huntModel c3WitnessEnv c2WitnessReq 5 = Option.some c3WitnessRes
    ∧ c3WitnessRes.person.profiles.Pairwise fun p q => profileKey p ≠ profileKey q :=
  have heq : huntModel c3WitnessEnv c2WitnessReq 5 = Option.some c3WitnessRes := by decide
  ⟨heq, c3_dedupe_order_stable.2.2 c3WitnessEnv c2WitnessReq 5 c3WitnessRes heq⟩


/-- Witness for C5's amended equivalence at a concrete payload whose
summary carries the `## 1.` anchor but lacks `## 6.`. -/
theorem c5_witness :
    templateRetryCondition c5PayloadHalf Language.english
      = amendedTemplateCondition c5PayloadHalf :=
  c5_template_condition_amended c5PayloadHalf Language.english

end OsintD2
